import Mathlib

set_option maxRecDepth 16384

/-!
Verification of the Gas Town activity-monitor TUI (`internal/tui/activity/model.go`).

The Go code is shallowly embedded here.  Go strings are modelled as `List Char`
(abbrev `Str`); Go byte-lengths (`len(s)`) are modelled by `goLen` (the sum of
the UTF-8 sizes of the characters), and Go byte indices by character indices
(the two coincide on the ASCII data exercised by all concrete inputs below).
`strings.ToLower` is modelled by `Char.toLower` (ASCII case-folding; every
pattern the code lowercases is ASCII).  External effects (tmux invocations,
the JSONL event file, `encoding/json`, RFC3339 parsing, wall-clock time) are
modelled as explicit parameters.  Wall-clock instants and durations are in
milliseconds.
-/

namespace Gastown

/-- Character list standing in for a Go string. -/
abbrev Str := List Char

/-- The ASCII apostrophe (U+0027), built by code point to keep source lines free
of bare quote characters. -/
def apos : Char := Char.ofNat 39

/-- The ASCII double quote (U+0022). -/
def dquote : Char := Char.ofNat 34

/-- Go `len(s)`: the byte length of the UTF-8 encoding. -/
def goLen (s : Str) : Nat := s.foldl (fun n c => n + c.utf8Size) 0

/-- Keep the longest prefix of whole characters whose encoded size fits in
`budget` bytes (models Go byte-slicing `s[:budget]`, which on the ASCII data
used here is exact). -/
def takeBytes (budget : Nat) : Str → Str
  | [] => []
  | c :: rest =>
    if c.utf8Size ≤ budget then c :: takeBytes (budget - c.utf8Size) rest
    else []

/-- Go `strings.HasPrefix s pat`. -/
def startsWithL : Str → Str → Bool
  | _, [] => true
  | [], _ :: _ => false
  | c :: cs, p :: ps => c == p && startsWithL cs ps

/-- Go `strings.HasSuffix s pat`. -/
def endsWithL (s pat : Str) : Bool := startsWithL s.reverse pat.reverse

/-- Go `strings.Contains s pat`. -/
def containsL (s pat : Str) : Bool :=
  match s with
  | [] => startsWithL [] pat
  | _ :: rest => startsWithL s pat || containsL rest pat

/-- Go `strings.Index s pat`: index of the first occurrence, `-1` if absent. -/
def goIndex (s pat : Str) : Int :=
  match s with
  | [] => if startsWithL [] pat then 0 else -1
  | _ :: rest =>
    if startsWithL s pat then 0
    else
      let r := goIndex rest pat
      if r < 0 then -1 else r + 1

/-- Go `strings.LastIndex s pat`: index of the last occurrence, `-1` if absent. -/
def goLastIndex (s pat : Str) : Int :=
  match s with
  | [] => if startsWithL [] pat then 0 else -1
  | _ :: rest =>
    let r := goLastIndex rest pat
    if r ≥ 0 then r + 1
    else if startsWithL s pat then 0
    else -1

/-- Go `strings.ContainsRune s r`. -/
def containsRuneL (s : Str) (r : Char) : Bool := s.contains r

/-- Go `strings.TrimLeft s cutset`. -/
def trimLeftSetL (s cutset : Str) : Str := s.dropWhile (fun c => cutset.contains c)

/-- Go `strings.TrimRight s cutset`. -/
def trimRightSetL (s cutset : Str) : Str := (trimLeftSetL s.reverse cutset).reverse

/-- Go `strings.Trim s cutset`. -/
def trimSetL (s cutset : Str) : Str := trimRightSetL (trimLeftSetL s cutset) cutset

/-- White-space characters recognized by Go `unicode.IsSpace` (ASCII portion;
the panes parsed here contain no exotic Unicode spaces). -/
def goSpaceChars : Str := [' ', '\t', '\n', '\x0b', '\x0c', '\r']

/-- Go `strings.TrimSpace`. -/
def trimSpaceL (s : Str) : Str := trimSetL s goSpaceChars

/-- Go `strings.TrimPrefix s pat`. -/
def dropPrefixL (s pat : Str) : Str :=
  if startsWithL s pat then s.drop pat.length else s

/-- Go `strings.TrimSuffix s pat`. -/
def dropSuffixL (s pat : Str) : Str :=
  if endsWithL s pat then s.take (s.length - pat.length) else s

/-- Go `strings.SplitN s sep 2` for non-empty `sep`. -/
def splitN2 (s sep : Str) : List Str :=
  let i := goIndex s sep
  if i < 0 then [s] else [s.take i.toNat, s.drop (i.toNat + sep.length)]

/-- Helper of `splitFullL`: the fuel strictly bounds the number of splits. -/
def splitFuel (sep : Str) : Nat → Str → List Str
  | 0, s => [s]
  | Nat.succ fuel, s =>
    let i := goIndex s sep
    if i < 0 then [s]
    else s.take i.toNat :: splitFuel sep fuel (s.drop (i.toNat + sep.length))

/-- Go `strings.Split s sep` for non-empty `sep`. -/
def splitFullL (s sep : Str) : List Str := splitFuel sep s.length s

/-- Go `strings.Join parts sep`. -/
def joinWithL (parts : List Str) (sep : Str) : Str :=
  match parts with
  | [] => []
  | p :: rest => rest.foldl (fun acc q => acc ++ sep ++ q) p

/-- ASCII lower-casing, modelling `strings.ToLower` on the ASCII patterns
matched by the parser. -/
def toLowerL (s : Str) : Str := s.map Char.toLower

/-- Decimal digit test. -/
def isDigitCh (c : Char) : Bool := '0' ≤ c && c ≤ '9'

/-- Value of a non-empty digit string. -/
def digitsVal (s : Str) : Option Nat :=
  let ds := s.takeWhile isDigitCh
  if ds.isEmpty then none
  else some (ds.foldl (fun n c => 10 * n + (c.toNat - 48)) 0)

/-- Model of `fmt.Sscanf(s, ..%d.., &n)`: skip leading blanks, read an optional
sign and a digit prefix; fail when no digit follows. -/
def parseDecIntL (s : Str) : Option Int :=
  let s := s.dropWhile (fun c => c == ' ' || c == '\t')
  match s with
  | '-' :: rest => (digitsVal rest).map (fun n => -(n : Int))
  | '+' :: rest => (digitsVal rest).map (fun n => (n : Int))
  | _ => (digitsVal s).map (fun n => (n : Int))

/-- Activity level of one agent (`ActivityLevel` in the Go source). -/
inductive ActivityLevel where
  | levelActive
  | levelRecent
  | levelWarm
  | levelCool
  | levelCold
  | levelRateLimited
  | levelHitLimit
  | levelWaitingForHuman
  | levelDead
deriving DecidableEq, Repr

/-- One monitored agent (`AgentLight` in the Go source).  The two render-layout
fields, which carry no semantic content, are omitted. -/
structure AgentLight where
  name : Str
  icon : Str
  role : Str
  rig : Str
  sessionName : Str
  agentType : Str
  curActivity : Int
  prevActivity : Int
  lastChangeTime : Nat
  level : ActivityLevel
  statusText : Str
  waitingForHuman : Bool
  waitingReason : Str
  rateLimited : Bool
  hitLimit : Bool
  limitResetInfo : Str
  contextPercent : Int
  currentTool : Str
  sessionLimitPct : Int
  sessionLimitReset : Str
  currentBead : Str
  recentOutput : Str
deriving DecidableEq, Repr

/-- The Go zero value of `AgentLight` (`LevelActive` is the zero
`ActivityLevel`). -/
def blankAgent : AgentLight where
  name := []
  icon := []
  role := []
  rig := []
  sessionName := []
  agentType := []
  curActivity := 0
  prevActivity := 0
  lastChangeTime := 0
  level := .levelActive
  statusText := []
  waitingForHuman := false
  waitingReason := []
  rateLimited := false
  hitLimit := false
  limitResetInfo := []
  contextPercent := 0
  currentTool := []
  sessionLimitPct := 0
  sessionLimitReset := []
  currentBead := []
  recentOutput := []

/-- One entry of a poll result (`sessionInfo` in the Go source). -/
structure SessionInfo where
  name : Str
  activity : Int
  paneLines : List Str
deriving DecidableEq, Repr

/-- A parsed tool event (`toolEvent` in the Go source); the timestamp is in
milliseconds. -/
structure ToolEvent where
  timestamp : Int
  actor : Str
  session : Str
  tool : Str
  eventType : Str
deriving DecidableEq, Repr

/-- Characters accepted by `isSeparatorLine`. -/
def isSeparatorChar (r : Char) : Bool :=
  r == '─' || r == '━' || r == '—' || r == '-' || r == '═'

/-- Go `isSeparatorLine`: the string is at least 4 bytes of horizontal-line
characters. -/
def isSeparatorLine (s : Str) : Bool :=
  if goLen s < 4 then false else s.all isSeparatorChar

/-- Go `isChromeLine`: Claude Code TUI chrome carrying no status signal. -/
def isChromeLine (line : Str) : Bool :=
  let trimmed := trimSpaceL line
  if trimmed.isEmpty then true
  else if startsWithL trimmed ("❯".data) then true
  else if containsL trimmed ("⏵".data) then true
  else if containsL trimmed ("bypass permissions".data) ||
      containsL trimmed ("shift+tab to cycle".data) ||
      containsL trimmed ("esc to interrupt".data) ||
      containsL trimmed ("auto-accept".data) then true
  else isSeparatorLine trimmed

/-- Permission-mode markers tried in order by `extractTaskName`; the result is
the end index of the first marker present. -/
def findPermEnd (trimmed : Str) : Option Nat :=
  let try1 := goIndex trimmed ("bypass permissions on".data)
  if try1 ≥ 0 then some (try1.toNat + ("bypass permissions on".data).length)
  else
    let try2 := goIndex trimmed ("auto-accept edits on".data)
    if try2 ≥ 0 then some (try2.toNat + ("auto-accept edits on".data).length)
    else
      let try3 := goIndex trimmed ("auto-accept all on".data)
      if try3 ≥ 0 then some (try3.toNat + ("auto-accept all on".data).length)
      else none

/-- Separator characters trimmed from both ends of a task name. -/
def taskTrimSet : Str := (" \t·•∙‧⋅─━—-|/").data

/-- Go `extractTaskName`: the conversation name embedded in the Claude Code
status bar, between the permission-mode marker and the trailing marker. -/
def extractTaskName (line : Str) : Str :=
  let trimmed := trimSpaceL line
  let escIdx := goIndex trimmed ("esc to interrupt".data)
  if escIdx < 0 then []
  else
    match findPermEnd trimmed with
    | none => []
    | some permEndIdx =>
      if permEndIdx ≥ escIdx.toNat then []
      else
        let middle := (trimmed.drop permEndIdx).take (escIdx.toNat - permEndIdx)
        if containsL middle ("shift+tab".data) then []
        else
          let middle := trimSetL middle taskTrimSet
          if middle.isEmpty then []
          else
            let middle := dropSuffixL middle ("(running)".data)
            trimSpaceL middle

/-- Go `truncateStatus`: safety trim to at most 200 bytes. -/
def truncateStatus (s : Str) : Str :=
  if goLen s > 200 then takeBytes 197 s ++ ("...").data else s

/-- Tree-drawing characters stripped from the front of tool sub-output. -/
def treeChars : Str := ("⎿└│├─ ").data

/-- Go `detectHumanWait`: non-empty reason when the line shows an interactive
prompt blocking on the human. -/
def detectHumanWait (line : Str) : Str :=
  let trimmed := trimSpaceL line
  let cleaned := trimSpaceL (trimLeftSetL trimmed treeChars)
  if startsWithL cleaned ("Interrupted".data) then ("interrupted").data
  else if startsWithL cleaned ("Allow ".data) && containsL cleaned ("?".data) then
    let idx := goIndex cleaned (":".data)
    if idx > 6 then
      ("permission: ").data ++ (cleaned.drop 6).take (idx.toNat - 6)
    else ("permission prompt").data
  else if containsL cleaned ("(Y)es".data) || containsL cleaned ("(y/n)".data) ||
      containsL cleaned ("(Y/n)".data) then
    ("confirmation prompt").data
  else if startsWithL trimmed ("? ".data) && goLen trimmed > 2 then ("question").data
  else
    let lower := toLowerL cleaned
    if containsL lower ("do you want to".data) || containsL lower ("press enter".data) then
      ("waiting for confirmation").data
    else []

/-- Go `extractParenStats`: the content of the last parenthetical, when it
contains a middle-dot separator. -/
def extractParenStats (line : Str) : Str :=
  let s := goLastIndex line ("(".data)
  let e := goLastIndex line (")".data)
  if s < 0 || e ≤ s + 1 then []
  else
    let inner := trimSpaceL ((line.drop (s.toNat + 1)).take (e.toNat - (s.toNat + 1)))
    if containsL inner ("·".data) then inner else []

/-- Spinner glyphs recognized by `extractStatusLine`. -/
def statusSpinners : Str := ("⠋⠙⠹⠸⠼⠴⠦⠧⠇⠏⣾⣽⣻⢿⡿⣟⣯⣷✳").data

/-- Index of the first spinner glyph in the line, if any. -/
def findSpinnerIdx : Str → Option Nat
  | [] => none
  | c :: rest =>
    if statusSpinners.contains c then some 0
    else (findSpinnerIdx rest).map (· + 1)

/-- Go `extractStatusLine`: parenthetical stats first (with a compaction
marker when relevant), else the remainder after the first spinner glyph. -/
def extractStatusLine (line : Str) : Str :=
  let cleaned := trimSpaceL (trimLeftSetL (trimSpaceL line) treeChars)
  if cleaned.isEmpty then []
  else
    let stats := extractParenStats cleaned
    if !stats.isEmpty then
      if containsL cleaned ("Compacting".data) || containsL cleaned ("compacting".data) then
        ("COMPACTING · ").data ++ stats
      else stats
    else
      match findSpinnerIdx cleaned with
      | some idx =>
        let rest := trimSpaceL (cleaned.drop (idx + 1))
        if !rest.isEmpty then truncateStatus rest else ("working").data
      | none => []

/-- Go `extractLimitResetInfo`: the trailing reset-time text of a limit
message. -/
def extractLimitResetInfo (line : Str) : Str :=
  let idx := goIndex (toLowerL line) ("resets ".data)
  if idx < 0 then []
  else trimSpaceL (line.drop idx.toNat)

/-- Go `extractContextPercent`: the percentage in an auto-compact warning. -/
def extractContextPercent (line : Str) : Int :=
  let lower := toLowerL line
  let idx := goIndex lower ("context left until auto-compact:".data)
  if idx < 0 then 0
  else
    let rest := trimSpaceL (line.drop (idx.toNat + ("context left until auto-compact:".data).length))
    let pctIdx := goIndex rest ("%".data)
    if pctIdx < 0 then 0
    else
      let numStr := trimSpaceL (rest.take pctIdx.toNat)
      match parseDecIntL numStr with
      | some pct => if 0 ≤ pct && pct ≤ 100 then pct else 0
      | none => 0

/-- The lower-cased session-limit anchor, spelled with an explicit apostrophe
character. -/
def needleYouveUsed : Str := ("you").data ++ [apos] ++ ("ve used ").data

/-- Go `extractSessionLimit`: usage percentage and reset time of a session
limit warning; `(0, empty)` on failure. -/
def extractSessionLimit (line : Str) : Int × Str :=
  let lower := toLowerL line
  let idx := goIndex lower needleYouveUsed
  if idx < 0 then (0, [])
  else
    let rest := line.drop (idx.toNat + needleYouveUsed.length)
    let pctIdx := goIndex rest ("%".data)
    if pctIdx < 0 then (0, [])
    else
      let numStr := trimSpaceL (rest.take pctIdx.toNat)
      match parseDecIntL numStr with
      | none => (0, [])
      | some pct =>
        if pct < 0 || pct > 100 then (0, [])
        else (pct, extractLimitResetInfo line)

/-- Glyphs marking a tool-execution line. -/
def toolIndicators : Str := ("⏺●⏵◉○◎⦿").data

/-- Go `extractCurrentTool`: a `CapitalizedTool(args)` descriptor after a tool
glyph. -/
def extractCurrentTool (line : Str) : Str :=
  match trimSpaceL line with
  | [] => []
  | firstRune :: restRunes =>
    if !toolIndicators.contains firstRune then []
    else if (trimSpaceL restRunes).isEmpty then []
    else if goLen (trimSpaceL restRunes) < 2 then []
    else
      match trimSpaceL restRunes with
      | [] => []
      | firstChar :: _ =>
        if firstChar < 'A' || 'Z' < firstChar then []
        else if goIndex (trimSpaceL restRunes) ("(".data) < 0 ||
            goIndex (trimSpaceL restRunes) ("(".data) > 20 then []
        else truncateStatus (trimSpaceL restRunes)

/-- Reset of the per-poll (non-sticky) pane-derived fields, the first step of
both pane parsers.  `contextPercent`, `sessionLimitPct` and
`sessionLimitReset` are sticky and survive. -/
def resetPaneFields (a : AgentLight) : AgentLight :=
  { a with statusText := [], waitingForHuman := false, waitingReason := [],
           rateLimited := false, hitLimit := false, limitResetInfo := [],
           currentTool := [] }

/-- Task-name scan of `parsePaneContentClaude`: walk the lines from the bottom
up and keep the first non-empty `extractTaskName` result (input here is the
reversed line list). -/
def findTaskNameRev : List Str → Str
  | [] => []
  | l :: rest =>
    let tn := extractTaskName l
    if !tn.isEmpty then tn else findTaskNameRev rest

/-- Session-limit update of one scan iteration (a Go sequential assignment,
flattened into one record update per path). -/
def sessionLimitUpd (a : AgentLight) (trimmed lower : Str) : AgentLight :=
  if containsL lower ("of your session limit".data) ||
      containsL lower ("% of your session".data) then
    if (extractSessionLimit trimmed).1 > 0 then
      if !(extractSessionLimit trimmed).2.isEmpty then
        { a with sessionLimitPct := (extractSessionLimit trimmed).1,
                 sessionLimitReset := (extractSessionLimit trimmed).2 }
      else { a with sessionLimitPct := (extractSessionLimit trimmed).1 }
    else a
  else a

/-- Context-percent update of one scan iteration. -/
def contextPctUpd (a : AgentLight) (trimmed lower : Str) : AgentLight :=
  if containsL lower ("context left until auto-compact:".data) then
    if extractContextPercent trimmed > 0 then
      { a with contextPercent := extractContextPercent trimmed }
    else a
  else a

/-- Current-tool update of one scan iteration; a compaction tool also clears
the sticky context percent. -/
def currentToolUpd (a : AgentLight) (trimmed : Str) : AgentLight :=
  if !(extractCurrentTool trimmed).isEmpty then
    if containsL (toLowerL (extractCurrentTool trimmed)) ("compact".data) then
      { a with currentTool := extractCurrentTool trimmed, contextPercent := 0 }
    else { a with currentTool := extractCurrentTool trimmed }
  else a

/-- One iteration of the first scan loop of `parsePaneContentClaude`:
usage-limit, session-limit, context-percent and current-tool signals of one
line.  The boolean is the `break` of the Go loop (a hard usage-cap hit stops
the scan). -/
def scanLimitsLine (a : AgentLight) (line : Str) : Bool × AgentLight :=
  if containsL (toLowerL (trimSpaceL line)) ("hit your limit".data) then
    (true, { a with hitLimit := true,
                    limitResetInfo := extractLimitResetInfo (trimSpaceL line) })
  else if containsL (toLowerL (trimSpaceL line)) ("credit balance too low".data) ||
      containsL (toLowerL (trimSpaceL line)) ("add funds:".data) then
    (true, { a with hitLimit := true, limitResetInfo := ("credit balance too low").data })
  else if containsL (toLowerL (trimSpaceL line)) ("/extra-usage".data) then
    (true, { a with hitLimit := true })
  else
    (false,
      currentToolUpd
        (contextPctUpd
          (sessionLimitUpd a (trimSpaceL line) (toLowerL (trimSpaceL line)))
          (trimSpaceL line) (toLowerL (trimSpaceL line)))
        (trimSpaceL line))

/-- First scan loop of `parsePaneContentClaude` over all lines. -/
def scanLimits (a : AgentLight) : List Str → AgentLight
  | [] => a
  | line :: rest =>
    if (scanLimitsLine a line).1 then (scanLimitsLine a line).2
    else scanLimits (scanLimitsLine a line).2 rest

/-- Rate-limit scan of `parsePaneContentClaude`: only the last three lines,
and only when no hard cap was found. -/
def scanRateLimited (a : AgentLight) (lines : List Str) : AgentLight :=
  if a.hitLimit then a
  else if (lines.drop (lines.length - 3)).any (fun line =>
      containsL (toLowerL (trimSpaceL line)) ("rate limit".data) &&
      containsL (toLowerL (trimSpaceL line)) ("resets".data)) then
    { a with rateLimited := true }
  else a

/-- Outcome of the bottom-up content scan of `parsePaneContentClaude`. -/
inductive BottomScan where
  | humanWait (reason : Str)
  | statusFound (text : Str)
  | nothingFound
deriving DecidableEq, Repr

/-- Bottom-up scan of `parsePaneContentClaude` over the reversed line list:
skip chrome, inspect at most 8 content lines, give waiting-for-human patterns
priority over status lines. -/
def scanBottomRev (checked : Nat) : List Str → BottomScan
  | [] => .nothingFound
  | line :: rest =>
    if isChromeLine line then scanBottomRev checked rest
    else
      let trimmed := trimSpaceL line
      let reason := detectHumanWait trimmed
      if !reason.isEmpty then .humanWait reason
      else
        let status := extractStatusLine trimmed
        if !status.isEmpty then .statusFound status
        else if checked + 1 < 8 then scanBottomRev (checked + 1) rest
        else .nothingFound

/-- Compaction override of the Claude post-processing: a compacting status
supersedes stale tool info. -/
def claudeCompactClear (a : AgentLight) : AgentLight :=
  if startsWithL a.statusText ("COMPACTING".data) then
    { a with currentTool := [], contextPercent := 0 }
  else a

/-- Hard-cap override of the Claude post-processing: a dead agent's last tool
is noise. -/
def claudeHitClear (a : AgentLight) : AgentLight :=
  if a.hitLimit then { a with currentTool := [] } else a

/-- Task-name suffix of the Claude post-processing. -/
def claudeTaskAppend (a : AgentLight) (taskName : Str) : AgentLight :=
  if !taskName.isEmpty then
    if !a.statusText.isEmpty then
      { a with statusText := a.statusText ++ (" · ").data ++ taskName }
    else { a with statusText := taskName }
  else a

/-- Post-processing of `parsePaneContentClaude` (reached only when the
bottom-up scan did not return early on a waiting pattern): compaction and
hard-cap overrides of the tool, then the task-name suffix. -/
def claudeFinish (a : AgentLight) (taskName : Str) : AgentLight :=
  claudeTaskAppend (claudeHitClear (claudeCompactClear a)) taskName

/-- The limit and rate-limit scans of `parsePaneContentClaude`, applied after
the per-poll reset (the Go sequential mutations, composed). -/
def claudeScans (a0 : AgentLight) (lines : List Str) : AgentLight :=
  scanRateLimited (scanLimits (resetPaneFields a0) lines) lines

/-- Go `parsePaneContentClaude`: the pane parser for Claude Code sessions. -/
def parsePaneContentClaude (a0 : AgentLight) (lines : List Str) : AgentLight :=
  if lines.isEmpty then resetPaneFields a0
  else
    match scanBottomRev 0 lines.reverse with
    | .humanWait reason =>
      { claudeScans a0 lines with waitingForHuman := true, waitingReason := reason }
    | .statusFound st =>
      claudeFinish { claudeScans a0 lines with statusText := st }
        (findTaskNameRev lines.reverse)
    | .nothingFound =>
      claudeFinish (claudeScans a0 lines) (findTaskNameRev lines.reverse)

/-- Modelled from the spec: the role-tag and icon constants live in an
internal `constants` package that is not part of the provided sources; only
their identities matter to the resolver, never their spelling, so they are
given their natural values here. -/
def RoleMayor : Str := ("mayor").data

/-- Modelled from the spec: see `RoleMayor`. -/
def RoleDeacon : Str := ("deacon").data

/-- Modelled from the spec: see `RoleMayor`. -/
def RoleDog : Str := ("dog").data

/-- Modelled from the spec: see `RoleMayor`. -/
def RoleWitness : Str := ("witness").data

/-- Modelled from the spec: see `RoleMayor`. -/
def RoleRefinery : Str := ("refinery").data

/-- Modelled from the spec: see `RoleMayor`. -/
def RoleCrew : Str := ("crew").data

/-- Modelled from the spec: see `RoleMayor`. -/
def RolePolecat : Str := ("polecat").data

/-- Modelled from the spec: icon constants from the missing `constants`
package; placeholders, never inspected by any claim. -/
def EmojiMayor : Str := ("iconMayor").data

/-- Modelled from the spec: see `EmojiMayor`. -/
def EmojiDeacon : Str := ("iconDeacon").data

/-- Modelled from the spec: see `EmojiMayor`. -/
def EmojiDog : Str := ("iconDog").data

/-- Modelled from the spec: see `EmojiMayor`. -/
def EmojiWitness : Str := ("iconWitness").data

/-- Modelled from the spec: see `EmojiMayor`. -/
def EmojiRefinery : Str := ("iconRefinery").data

/-- Modelled from the spec: see `EmojiMayor`. -/
def EmojiCrew : Str := ("iconCrew").data

/-- Modelled from the spec: see `EmojiMayor`. -/
def EmojiPolecat : Str := ("iconPolecat").data

/-- The `hq-` branch of `parseSessionName`. -/
def parseHq (a : AgentLight) : AgentLight :=
  if dropPrefixL a.sessionName ("hq-".data) = ("mayor").data then
    { a with rig := ("hq").data, role := RoleMayor, name := ("Mayor").data, icon := EmojiMayor }
  else if dropPrefixL a.sessionName ("hq-".data) = ("deacon").data then
    { a with rig := ("hq").data, role := RoleDeacon, name := ("Deacon").data,
             icon := EmojiDeacon }
  else
    { a with rig := ("hq").data, role := dropPrefixL a.sessionName ("hq-".data),
             name := dropPrefixL a.sessionName ("hq-".data), icon := ("?").data }

/-- The `gt-<rig>-<rest>` branch of `parseSessionName`. -/
def parseGtRest (a : AgentLight) (rigName rest : Str) : AgentLight :=
  if rest = ("witness").data then
    { a with rig := rigName, role := RoleWitness, name := ("witness").data,
             icon := EmojiWitness }
  else if rest = ("refinery").data then
    { a with rig := rigName, role := RoleRefinery, name := ("refinery").data,
             icon := EmojiRefinery }
  else if startsWithL rest ("crew-".data) then
    { a with rig := rigName, role := RoleCrew, name := dropPrefixL rest ("crew-".data),
             icon := EmojiCrew }
  else if startsWithL rest ("deacon-".data) then
    { a with rig := rigName, role := RoleDog, name := dropPrefixL rest ("deacon-".data),
             icon := EmojiDog }
  else
    { a with rig := rigName, role := RolePolecat, name := rest, icon := EmojiPolecat }

/-- Go `parseSessionName`: derive role, rig, display name and icon from the
session identifier. -/
def parseSessionName (a : AgentLight) : AgentLight :=
  if startsWithL a.sessionName ("hq-".data) then parseHq a
  else if !startsWithL a.sessionName ("gt-".data) then { a with name := a.sessionName }
  else if startsWithL (dropPrefixL a.sessionName ("gt-".data)) ("dog-".data) then
    { a with rig := ("hq").data, role := RoleDog,
             name := dropPrefixL (dropPrefixL a.sessionName ("gt-".data)) ("dog-".data),
             icon := EmojiDog }
  else
    match splitN2 (dropPrefixL a.sessionName ("gt-".data)) ("-".data) with
    | [rigName, rest] => parseGtRest a rigName rest
    | _ => { a with name := dropPrefixL a.sessionName ("gt-".data) }

/-- Go `detectAgentTypeFromPane`: classify the dialect from pane content;
the primary dialect is the fallback. -/
def detectAgentTypeFromPane (lines : List Str) : Str :=
  if lines.any (fun line =>
      containsL line ("OpenCode".data) ||
      (containsL line ("ctrl+p commands".data) && containsL line ("tab agents".data))) then
    ("opencode").data
  else ("claude").data

/-- Go `isClaudeAgent`. -/
def isClaudeAgent (agentType : Str) : Bool :=
  agentType.isEmpty || agentType = ("claude").data

/-- Go `isBoxDrawingOnly`. -/
def isBoxDrawingOnly (s : Str) : Bool :=
  s.all (fun r =>
    r == '┃' || r == '╹' || r == '▀' || r == '│' || r == '┌' || r == '┐' ||
    r == '└' || r == '┘' || r == '─' || r == '━' || r == '═' || r == '║' ||
    r == '╔' || r == '╗' || r == '╚' || r == '╝' || r == ' ' || r == '\t')

/-- Go `isOpenCodeChromeLine`. -/
def isOpenCodeChromeLine (line : Str) : Bool :=
  let trimmed := trimSpaceL line
  if trimmed.isEmpty then true
  else if isBoxDrawingOnly trimmed then true
  else if containsL trimmed ("esc interrupt".data) then true
  else if containsL trimmed ("ctrl+p commands".data) then true
  else if startsWithL trimmed ("Build ".data) && containsL trimmed ("Copilot".data) then true
  else isSeparatorLine trimmed

/-- Go `looksLikeDuration`. -/
def looksLikeDuration (s : Str) : Bool :=
  if goLen s == 0 || goLen s > 20 then false
  else
    s.all (fun r => r == 's' || r == 'm' || r == 'h' || isDigitCh r || r == ' ') &&
    s.any (fun r => r == 's' || r == 'm' || r == 'h')

/-- Go `extractOpenCodeElapsedTime`: task name and elapsed duration from the
persistent header glyph line. -/
def extractOpenCodeElapsedTime (line : Str) : Str :=
  let trimmed := trimSpaceL line
  let idx := goIndex trimmed ("▣".data)
  if idx < 0 then []
  else
    let rest := trimSpaceL (trimmed.drop (idx.toNat + 1))
    if rest.isEmpty then []
    else
      let segments := splitFullL rest (" · ").data
      if segments.length < 3 then []
      else
        let lastSeg := trimSpaceL (segments.getLastD [])
        if !looksLikeDuration lastSeg then []
        else
          let taskName := trimSpaceL (segments.headD [])
          if !taskName.isEmpty then taskName ++ (" · ").data ++ lastSeg
          else lastSeg

/-- The braille spinner glyphs of the OpenCode TUI. -/
def brailleSpinners : Str := ("⠋⠙⠹⠸⠼⠴⠦⠧⠇⠏⣾⣽⣻⢿⡿⣟⣯⣷").data

/-- Go `extractBrailleSpinner`. -/
def extractBrailleSpinner (line : Str) : Str :=
  let trimmed := trimSpaceL line
  match trimmed with
  | [] => []
  | c :: restRunes =>
    if brailleSpinners.contains c then
      let rest := trimSpaceL restRunes
      if !rest.isEmpty then truncateStatus rest else ("working").data
    else []

/-- Go `extractOpenCodeTool`: an in-flight tool invocation, reformatted into
the `Tool(args)` convention. -/
def extractOpenCodeTool (line : Str) : Str :=
  let trimmed := trimSpaceL line
  if !startsWithL trimmed ("✱".data) then []
  else
    let rest := trimSpaceL (trimmed.drop 1)
    if rest.isEmpty then []
    else
      match splitN2 rest ([' ']) with
      | [toolName, arg] =>
        let arg := trimSetL arg [dquote, apos]
        let arg := if goLen arg > 60 then takeBytes 57 arg ++ ("...").data else arg
        toolName ++ ['('] ++ arg ++ [')']
      | other => other.headD []

/-- Go `formatBashTool`. -/
def formatBashTool (cmd0 : Str) : Str :=
  let cmd := trimSpaceL cmd0
  if cmd.isEmpty then []
  else
    let cmd := dropSuffixL cmd (" 2>&1".data)
    let cmd := dropSuffixL cmd (" 2>/dev/null".data)
    let cmd := dropSuffixL cmd (" > /dev/null".data)
    let cmd := trimSpaceL cmd
    let cmd := if goLen cmd > 60 then takeBytes 57 cmd ++ ("...").data else cmd
    ("Bash(").data ++ cmd ++ [')']

/-- Go `formatSubTool`. -/
def formatSubTool (sub0 : Str) : Str :=
  let sub := trimSpaceL sub0
  if sub.isEmpty then []
  else
    match splitN2 sub ([' ']) with
    | [toolName, argRaw] =>
      let arg := trimSpaceL argRaw
      let arg :=
        if containsL arg (['/']) then
          let components := splitFullL arg (['/'])
          if components.length > 3 then
            joinWithL (components.drop (components.length - 3)) (['/'])
          else arg
        else arg
      let arg := if goLen arg > 50 then takeBytes 47 arg ++ ("...").data else arg
      toolName ++ ['('] ++ arg ++ [')']
    | other => other.headD []

/-- Inner loop of `extractOpenCodeContextPercent`, recursing over the suffix
of the line at the current scan position. -/
def ocCtxAux : Str → Int
  | [] => 0
  | c :: rest =>
    if (c :: rest).length ≤ 3 then 0
    else if isDigitCh c then
      let ds := rest.takeWhile isDigitCh
      let after := rest.drop ds.length
      match after with
      | pch :: sch :: parch :: _ =>
        if pch == '%' && sch == ' ' && parch == '(' then
          match parseDecIntL (c :: ds) with
          | some pct => if 0 ≤ pct && pct ≤ 100 then 100 - pct else ocCtxAux rest
          | none => ocCtxAux rest
        else ocCtxAux rest
      | _ => ocCtxAux rest
    else ocCtxAux rest

/-- Go `extractOpenCodeContextPercent`: `used% (cost)` in the header, returned
as remaining percent. -/
def extractOpenCodeContextPercent (line : Str) : Int :=
  ocCtxAux (trimSpaceL line)

/-- The per-line signals collected by the first pass of
`parsePaneContentOpenCode` (the local variables of the Go loop). -/
structure OCSignals where
  elapsedTime : Str
  lastToolLine : Str
  pendingOp : Str
  spinnerStatus : Str
  hasTodoInProgress : Bool
  lastPanelDesc : Str
  lastSubTool : Str
  lastBashCmd : Str
  activeBashCmd : Str
  activeSubTool : Str
  activeTaskDesc : Str
  inPanel : Bool
  activeToolName : Str
deriving DecidableEq, Repr

/-- All signals empty. -/
def ocSignals0 : OCSignals :=
  ⟨[], [], [], [], false, [], [], [], [], [], [], false, []⟩

/-- Processing of the content of one box-framed panel line. -/
def ocPanelLine (sg : OCSignals) (inner : Str) : OCSignals :=
  if startsWithL inner ("# ".data) then { sg with lastPanelDesc := inner.drop 2 }
  else if startsWithL inner ("$ ".data) then { sg with lastBashCmd := inner.drop 2 }
  else if startsWithL inner ("└ ".data) || startsWithL inner ("└".data) then
    let sub := trimSpaceL (dropPrefixL inner ("└".data))
    if !sub.isEmpty then { sg with lastSubTool := sub } else sg
  else if !inner.isEmpty && !startsWithL inner ("ctrl+".data) &&
      !startsWithL inner ("✓".data) && !startsWithL inner ("○".data) then
    if containsL inner ("toolcall".data) then { sg with lastPanelDesc := inner } else sg
  else sg

/-- Context-percent update of the OpenCode line loop. -/
def ocCtxUpd (a : AgentLight) (trimmed : Str) : AgentLight :=
  if extractOpenCodeContextPercent trimmed > 0 then
    { a with contextPercent := extractOpenCodeContextPercent trimmed }
  else a

/-- Rate-limit update of the OpenCode line loop. -/
def ocRateUpd (a : AgentLight) (lower : Str) : AgentLight :=
  if containsL lower ("rate limit".data) &&
      (containsL lower ("retry".data) || containsL lower ("resets".data) ||
       containsL lower ("exceeded".data)) then
    { a with rateLimited := true }
  else a

/-- Hard-cap update of the OpenCode line loop (the reset info is extracted
from the raw line, as in the Go source). -/
def ocHitUpd (a : AgentLight) (line lower : Str) : AgentLight :=
  if containsL lower ("hit your limit".data) ||
      containsL lower ("credit balance too low".data) ||
      containsL lower ("quota exceeded".data) then
    { a with hitLimit := true, limitResetInfo := extractLimitResetInfo line }
  else a

/-- Agent-side effect of one iteration of the OpenCode signal-collection loop
(chrome and box-framed lines leave the agent untouched; these updates read
none of the collected signals, so the loop body splits into this function and
`ocSignalsLine`). -/
def ocAgentLine (a : AgentLight) (line : Str) : AgentLight :=
  if (trimSpaceL line).isEmpty || isOpenCodeChromeLine (trimSpaceL line) then a
  else if startsWithL (trimSpaceL line) ("┃".data) then a
  else
    ocHitUpd (ocRateUpd (ocCtxUpd a (trimSpaceL line)) (toLowerL (trimSpaceL line)))
      line (toLowerL (trimSpaceL line))

/-- Signal-side effect of one iteration of the OpenCode signal-collection
loop. -/
def ocSignalsLine (sg0 : OCSignals) (line : Str) : OCSignals :=
  let trimmed := trimSpaceL line
  let sg :=
    if startsWithL trimmed ("┃".data) then { sg0 with inPanel := true }
    else if !trimmed.isEmpty && !isOpenCodeChromeLine trimmed then { sg0 with inPanel := false }
    else sg0
  if trimmed.isEmpty || isOpenCodeChromeLine trimmed then sg
  else
    let sg :=
      if startsWithL trimmed ("▣".data) then
        { sg with elapsedTime := extractOpenCodeElapsedTime trimmed }
      else sg
    let sg :=
      if startsWithL trimmed ("✱".data) then
        let tool := extractOpenCodeTool trimmed
        if !tool.isEmpty then { sg with lastToolLine := tool } else sg
      else sg
    if startsWithL trimmed ("┃".data) then
      ocPanelLine sg (trimSpaceL (dropPrefixL trimmed ("┃".data)))
    else
      let sg :=
        let status := extractBrailleSpinner trimmed
        if !status.isEmpty then { sg with spinnerStatus := status, activeToolName := status }
        else sg
      let sg :=
        if startsWithL trimmed ("└ ".data) || startsWithL trimmed ("└".data) then
          let sub := trimSpaceL (dropPrefixL trimmed ("└".data))
          if !sub.isEmpty && !sg.inPanel then { sg with activeSubTool := sub } else sg
        else sg
      let sg :=
        if startsWithL trimmed ("$ ".data) && !sg.inPanel then
          { sg with activeBashCmd := trimmed.drop 2 }
        else sg
      let sg :=
        if containsL trimmed ("toolcall".data) && !sg.inPanel then
          { sg with activeTaskDesc := trimmed }
        else sg
      let sg :=
        if startsWithL trimmed ("~".data) then
          let rest := trimSpaceL (trimmed.drop 1)
          if !rest.isEmpty then { sg with pendingOp := rest } else sg
        else sg
      if containsL trimmed ("[•]".data) then { sg with hasTodoInProgress := true } else sg

/-- One iteration of the signal-collection loop of
`parsePaneContentOpenCode`. -/
def ocScanLine (st : AgentLight × OCSignals) (line : Str) : AgentLight × OCSignals :=
  (ocAgentLine st.1 line, ocSignalsLine st.2 line)

/-- Best available task description for the OpenCode status text. -/
def ocBestDesc (sg : OCSignals) : Str :=
  if !sg.activeTaskDesc.isEmpty then sg.activeTaskDesc else sg.lastPanelDesc

/-- Branch 1 of the OpenCode signal-priority selection: a tool in flight. -/
def ocSelTool (a : AgentLight) (sg : OCSignals) : AgentLight :=
  if !(ocBestDesc sg).isEmpty then
    { a with currentTool := sg.lastToolLine, statusText := truncateStatus (ocBestDesc sg) }
  else if !sg.elapsedTime.isEmpty then
    { a with currentTool := sg.lastToolLine, statusText := sg.elapsedTime }
  else { a with currentTool := sg.lastToolLine }

/-- Branch 2: an active (unframed) sub-tool line. -/
def ocSelActiveSub (a : AgentLight) (sg : OCSignals) : AgentLight :=
  if !(ocBestDesc sg).isEmpty then
    { a with currentTool := formatSubTool sg.activeSubTool,
             statusText := truncateStatus (ocBestDesc sg) }
  else if !sg.activeToolName.isEmpty then
    { a with currentTool := formatSubTool sg.activeSubTool, statusText := sg.activeToolName }
  else if !sg.elapsedTime.isEmpty then
    { a with currentTool := formatSubTool sg.activeSubTool, statusText := sg.elapsedTime }
  else { a with currentTool := formatSubTool sg.activeSubTool }

/-- Branch 3: an active (unframed) bare shell command. -/
def ocSelActiveBash (a : AgentLight) (sg : OCSignals) : AgentLight :=
  if !(ocBestDesc sg).isEmpty then
    { a with currentTool := formatBashTool sg.activeBashCmd,
             statusText := truncateStatus (ocBestDesc sg) }
  else if !sg.elapsedTime.isEmpty then
    { a with currentTool := formatBashTool sg.activeBashCmd, statusText := sg.elapsedTime }
  else { a with currentTool := formatBashTool sg.activeBashCmd }

/-- Branch 4: a pending operation. -/
def ocSelPending (a : AgentLight) (sg : OCSignals) : AgentLight :=
  if !sg.lastBashCmd.isEmpty then
    { a with statusText := sg.pendingOp, currentTool := formatBashTool sg.lastBashCmd }
  else { a with statusText := sg.pendingOp }

/-- Branch 5: a braille spinner without higher-priority signals. -/
def ocSelSpinner (a : AgentLight) (sg : OCSignals) : AgentLight :=
  if !sg.lastSubTool.isEmpty then
    if !(ocBestDesc sg).isEmpty then
      { a with currentTool := formatSubTool sg.lastSubTool,
               statusText := truncateStatus (ocBestDesc sg) }
    else { a with currentTool := formatSubTool sg.lastSubTool, statusText := sg.spinnerStatus }
  else
    if !(ocBestDesc sg).isEmpty then
      { a with statusText := truncateStatus (ocBestDesc sg) }
    else { a with statusText := sg.spinnerStatus }

/-- Branch 6: the last completed panel sub-tool, shown for context. -/
def ocSelPanelSub (a : AgentLight) (sg : OCSignals) : AgentLight :=
  if !(ocBestDesc sg).isEmpty then
    { a with currentTool := formatSubTool sg.lastSubTool,
             statusText := truncateStatus (ocBestDesc sg) }
  else { a with currentTool := formatSubTool sg.lastSubTool, statusText := sg.elapsedTime }

/-- Branch 7: the last completed panel command, shown for context. -/
def ocSelPanelBash (a : AgentLight) (sg : OCSignals) : AgentLight :=
  if !(ocBestDesc sg).isEmpty then
    { a with currentTool := formatBashTool sg.lastBashCmd,
             statusText := truncateStatus (ocBestDesc sg) }
  else { a with currentTool := formatBashTool sg.lastBashCmd, statusText := sg.elapsedTime }

/-- Branch 8: only the elapsed time of the header line. -/
def ocSelElapsed (a : AgentLight) (sg : OCSignals) : AgentLight :=
  if !(ocBestDesc sg).isEmpty then
    { a with statusText := truncateStatus (ocBestDesc sg) ++ (" · ").data ++ sg.elapsedTime }
  else { a with statusText := sg.elapsedTime }

/-- Signal-priority selection at the end of `parsePaneContentOpenCode`
(the Go sequential assignments flattened into one record update per path,
one helper per priority branch). -/
def ocSelect (a : AgentLight) (sg : OCSignals) : AgentLight :=
  if !sg.lastToolLine.isEmpty then ocSelTool a sg
  else if !sg.activeSubTool.isEmpty then ocSelActiveSub a sg
  else if !sg.activeBashCmd.isEmpty then ocSelActiveBash a sg
  else if !sg.pendingOp.isEmpty then ocSelPending a sg
  else if !sg.spinnerStatus.isEmpty then ocSelSpinner a sg
  else if !sg.lastSubTool.isEmpty && !sg.elapsedTime.isEmpty then ocSelPanelSub a sg
  else if !sg.lastBashCmd.isEmpty && !sg.elapsedTime.isEmpty then ocSelPanelBash a sg
  else if !sg.elapsedTime.isEmpty then ocSelElapsed a sg
  else if sg.hasTodoInProgress then { a with statusText := [] }
  else a

/-- Hard-cap override at the end of `parsePaneContentOpenCode`. -/
def ocHitClear (a : AgentLight) : AgentLight :=
  if a.hitLimit then { a with currentTool := [] } else a

/-- Go `parsePaneContentOpenCode`: the pane parser for OpenCode sessions. -/
def parsePaneContentOpenCode (a0 : AgentLight) (lines : List Str) : AgentLight :=
  if lines.isEmpty then resetPaneFields a0
  else
    ocHitClear
      (ocSelect (lines.foldl ocScanLine (resetPaneFields a0, ocSignals0)).1
        (lines.foldl ocScanLine (resetPaneFields a0, ocSignals0)).2)

/-- Go `parsePaneContent`: lazy dialect detection (cached once non-empty),
then dispatch to the dialect parser. -/
def parsePaneContent (a0 : AgentLight) (lines : List Str) : AgentLight :=
  if a0.agentType.isEmpty then
    if detectAgentTypeFromPane lines = ("opencode").data then
      parsePaneContentOpenCode { a0 with agentType := detectAgentTypeFromPane lines } lines
    else parsePaneContentClaude { a0 with agentType := detectAgentTypeFromPane lines } lines
  else
    if a0.agentType = ("opencode").data then parsePaneContentOpenCode a0 lines
    else parsePaneContentClaude a0 lines

/-- The aggregate stat counters of the model, reset at the top of every
merge. -/
structure Counts where
  active : Nat
  recent : Nat
  idle : Nat
  stuck : Nat
  rateLimited : Nat
  hitLimit : Nat
  waiting : Nat
deriving DecidableEq, Repr

/-- All counters zero. -/
def counts0 : Counts := ⟨0, 0, 0, 0, 0, 0, 0⟩

/-- The engine state (`Model` in the Go source, restricted to the fields the
merge reads and writes; rendering, animation and mouse state are omitted). -/
structure TownModel where
  agents : List AgentLight
  activeCount : Nat
  recentCount : Nat
  idleCount : Nat
  stuckCount : Nat
  rateLimitedCount : Nat
  hitLimitCount : Nat
  waitingCount : Nat
  totalAgents : Nat
deriving Repr

/-- Debounce clearing of a waiting flag that is within the 5-second window
(a false positive). -/
def clearFalseWaiting (sinceMs : Int) (a : AgentLight) : AgentLight :=
  if a.waitingForHuman && sinceMs ≤ 5000 then { a with waitingForHuman := false } else a

/-- The time-based switch of the level computation, with its counter
increments. -/
def timeBucket (sinceMs : Int) (a : AgentLight) (c : Counts) : AgentLight × Counts :=
  if sinceMs < 3000 then
    ({ a with level := .levelActive }, { c with active := c.active + 1 })
  else if sinceMs < 30000 then
    ({ a with level := .levelRecent }, { c with recent := c.recent + 1 })
  else if sinceMs < 120000 then
    ({ a with level := .levelWarm }, { c with idle := c.idle + 1 })
  else if sinceMs < 300000 then
    ({ a with level := .levelCool }, { c with idle := c.idle + 1 })
  else
    ({ a with level := .levelCold }, { c with stuck := c.stuck + 1 })

/-- The rate-limit override of the level computation: it replaces a
Warm/Cool/Cold level and moves the agent from the idle/stuck counter to the
rate-limited one. -/
def rateOverride (p : AgentLight × Counts) : AgentLight × Counts :=
  if p.1.rateLimited && p.1.level ≠ .levelActive && p.1.level ≠ .levelRecent then
    (⟨{ p.1 with level := .levelRateLimited },
      { (match p.1.level with
         | .levelWarm => { p.2 with idle := p.2.idle - 1 }
         | .levelCool => { p.2 with idle := p.2.idle - 1 }
         | .levelCold => { p.2 with stuck := p.2.stuck - 1 }
         | _ => p.2) with rateLimited := (match p.1.level with
         | .levelWarm => { p.2 with idle := p.2.idle - 1 }
         | .levelCool => { p.2 with idle := p.2.idle - 1 }
         | .levelCold => { p.2 with stuck := p.2.stuck - 1 }
         | _ => p.2).rateLimited + 1 }⟩ : AgentLight × Counts)
  else p

/-- Per-agent level computation and counter update of `updateAgents`
(the body of the loop at the end of the merge).  `sinceMs` is
`now.Sub(a.LastChangeTime)` in milliseconds. -/
def levelStep (sinceMs : Int) (a : AgentLight) (c : Counts) : AgentLight × Counts :=
  if a.waitingForHuman && sinceMs > 5000 then
    ({ a with level := .levelWaitingForHuman }, { c with waiting := c.waiting + 1 })
  else if a.hitLimit then
    ({ clearFalseWaiting sinceMs a with level := .levelHitLimit },
     { c with hitLimit := c.hitLimit + 1 })
  else rateOverride (timeBucket sinceMs (clearFalseWaiting sinceMs a) c)

/-- Update of one already-known agent from a freshly polled session entry:
the shift register of activity timestamps.  The Go code first shifts the
register and then compares the two fields of the updated record; the
comparison is written here directly on the values it receives. -/
def updateExistingAgent (now : Nat) (a : AgentLight) (s : SessionInfo) : AgentLight :=
  if s.activity ≠ a.curActivity then
    { a with prevActivity := a.curActivity, curActivity := s.activity, lastChangeTime := now }
  else { a with prevActivity := a.curActivity, curActivity := s.activity }

/-- Creation of a fresh agent for a session seen for the first time.
`envProbe` models `detectAgentType` (the `tmux show-environment GT_AGENT`
read): it returns the parsed probe result, empty when the variable is absent
or empty. -/
def newAgentLight (envProbe : Str → Str) (now : Nat) (s : SessionInfo) : AgentLight :=
  parseSessionName
    { blankAgent with sessionName := s.name, agentType := envProbe s.name,
                      curActivity := s.activity, prevActivity := s.activity,
                      lastChangeTime := now }

/-- One iteration of the session loop of `updateAgents`: update the agent in
place when the session is already known, otherwise append a fresh one. -/
def mergeSession (envProbe : Str → Str) (now : Nat)
    (agents : List AgentLight) (s : SessionInfo) : List AgentLight :=
  if agents.any (fun a => a.sessionName = s.name) then
    agents.map (fun a => if a.sessionName = s.name then updateExistingAgent now a s else a)
  else agents ++ [newAgentLight envProbe now s]

/-- The pane captured for a session name (`paneMap` of `updateAgents`; built
by a forward loop, so a later duplicate entry wins). -/
def paneFor (sessions : List SessionInfo) (n : Str) : Option (List Str) :=
  (sessions.reverse.find? (fun s => s.name = n)).map (·.paneLines)

/-- Pane parsing of one agent during the level loop: skipped when the session
list holds no pane for it. -/
def pollAgent (pane : Option (List Str)) (a : AgentLight) : AgentLight :=
  match pane with
  | some lines => parsePaneContent a lines
  | none => a

/-- Body of the level-and-stats loop: parse the pane, then compute the level
and bump the counters. -/
def pollOne (now : Nat) (sessions : List SessionInfo) (a : AgentLight) (c : Counts) :
    AgentLight × Counts :=
  levelStep
    ((now : Int) - ((pollAgent (paneFor sessions a.sessionName) a).lastChangeTime : Int))
    (pollAgent (paneFor sessions a.sessionName) a) c

/-- The level-and-stats loop of `updateAgents`, over the merged-and-filtered
agent list. -/
def levelLoop (now : Nat) (sessions : List SessionInfo) :
    List AgentLight → Counts → List AgentLight × Counts
  | [], c => ([], c)
  | a :: rest, c =>
    ((pollOne now sessions a c).1 ::
       (levelLoop now sessions rest (pollOne now sessions a c).2).1,
     (levelLoop now sessions rest (pollOne now sessions a c).2).2)

/-- The last segment of an event actor path (`parts[len(parts)-1]` after
splitting on the path separator; `strings.Split` never returns an empty
slice). -/
def lastActorPart (actor : Str) : Str :=
  (splitFullL actor (['/'])).getLastD []

/-- The tool value an event writes: a started event writes the event's tool,
a finished event clears. -/
def evtNewTool (evt : ToolEvent) : Str :=
  if evt.eventType = ("tool_started").data then evt.tool else []

/-- One iteration of the event loop of `applyToolEvents`.  The Go original
looks agents up through a `needsEvents` map built from pointers before the
loop; since the agent-type field never changes inside the loop, membership is
recomputed here.  The fallback scan iterates a Go map (unspecified order); it
is modelled in list order, and the single matched agent is updated through
record equality (full records of live agents are pairwise distinct because
session names are unique). -/
def applyOneEvent (agents : List AgentLight) (evt : ToolEvent) : List AgentLight :=
  if !evt.session.isEmpty &&
      agents.any (fun a => !isClaudeAgent a.agentType && a.sessionName = evt.session) then
    agents.map (fun a =>
      if !isClaudeAgent a.agentType && a.sessionName = evt.session then
        { a with currentTool := evtNewTool evt }
      else a)
  else if !evt.actor.isEmpty then
    match agents.find? (fun a =>
        !isClaudeAgent a.agentType && containsL a.sessionName (lastActorPart evt.actor)) with
    | some t => agents.map (fun a => if a = t then { a with currentTool := evtNewTool evt } else a)
    | none => agents
  else agents

/-- Go `applyToolEvents`: populate `currentTool` of non-Claude agents from the
recent plugin events, in chronological order, last match winning. -/
def applyToolEvents (events : List ToolEvent) (agents : List AgentLight) : List AgentLight :=
  if events.isEmpty then agents
  else if !agents.any (fun a => !isClaudeAgent a.agentType) then agents
  else events.foldl applyOneEvent agents

/-- The session loop of `updateAgents`: update or create an agent for every
polled session. -/
def mergedAgents (envProbe : Str → Str) (m : TownModel) (sessions : List SessionInfo)
    (now : Nat) : List AgentLight :=
  sessions.foldl (mergeSession envProbe now) m.agents

/-- The merged agent list with the agents absent from this poll removed
(the `seen` filter of `updateAgents`). -/
def filteredAgents (envProbe : Str → Str) (m : TownModel) (sessions : List SessionInfo)
    (now : Nat) : List AgentLight :=
  (mergedAgents envProbe m sessions now).filter
    (fun a => sessions.any (fun s => s.name = a.sessionName))

/-- The level-loop result of one merge. -/
def loopResult (envProbe : Str → Str) (m : TownModel) (sessions : List SessionInfo)
    (now : Nat) : List AgentLight × Counts :=
  levelLoop now sessions (filteredAgents envProbe m sessions now) counts0

/-- Go `updateAgents`: the whole merge of one poll.  `envProbe` models the
tmux environment probe for newly created agents and `events` the tool events
read back from the event log (`readRecentToolEvents` runs before
`applyToolEvents` in the Go source; its file IO is modelled separately by
`readRecentToolEvents` below). -/
def updateAgents (envProbe : Str → Str) (m : TownModel) (sessions : List SessionInfo)
    (events : List ToolEvent) (now : Nat) : TownModel :=
  { agents := applyToolEvents events (loopResult envProbe m sessions now).1,
    activeCount := (loopResult envProbe m sessions now).2.active,
    recentCount := (loopResult envProbe m sessions now).2.recent,
    idleCount := (loopResult envProbe m sessions now).2.idle,
    stuckCount := (loopResult envProbe m sessions now).2.stuck,
    rateLimitedCount := (loopResult envProbe m sessions now).2.rateLimited,
    hitLimitCount := (loopResult envProbe m sessions now).2.hitLimit,
    waitingCount := (loopResult envProbe m sessions now).2.waiting,
    totalAgents := (loopResult envProbe m sessions now).1.length }

/-- The fields of one decoded event-log record that the reader consumes
(the anonymous struct inside `readRecentToolEvents`, with the two payload
strings it extracts; an `Option` is `none` when the payload is absent or the
key is missing or not a string). -/
structure RawEvt where
  ts : Str
  type : Str
  actor : Str
  payloadTool : Option Str
  payloadSession : Option Str
deriving DecidableEq, Repr

/-- Go `readRecentToolEvents`, over the lines scanned from the tail of the
event log.  `unmarshal` models `json.Unmarshal` into the record struct
(`none` on invalid JSON) and `parseTime` models `time.Parse(time.RFC3339, ·)`
in milliseconds (`none` on an unparseable timestamp); `nowMs` is the wall
clock, so the cutoff is `nowMs - 15000`. -/
def readRecentToolEvents (unmarshal : Str → Option RawEvt) (parseTime : Str → Option Int)
    (nowMs : Int) : List Str → List ToolEvent
  | [] => []
  | line :: rest =>
    let tail := readRecentToolEvents unmarshal parseTime nowMs rest
    if line.isEmpty then tail
    else if !(containsL line ("tool_started").data || containsL line ("tool_finished").data) then
      tail
    else
      match unmarshal line with
      | none => tail
      | some evt =>
        if evt.type ≠ ("tool_started").data && evt.type ≠ ("tool_finished").data then tail
        else
          match parseTime evt.ts with
          | none => tail
          | some ts =>
            if ts < nowMs - 15000 then tail
            else
              { timestamp := ts, actor := evt.actor,
                session := evt.payloadSession.getD [],
                tool := evt.payloadTool.getD [],
                eventType := evt.type } :: tail


/-! ### Shape lemmas: which fields each phase of a parse can touch -/

/-- The pane parsers only write the pane-derived fields: the result is the
input record with (at most) those ten fields replaced.  Identity fields,
activity timestamps, the computed level, the agent type and the hover fields
pass through untouched. -/
def ParseShape (a b : AgentLight) : Prop :=
  b = { a with statusText := b.statusText, waitingForHuman := b.waitingForHuman,
               waitingReason := b.waitingReason, rateLimited := b.rateLimited,
               hitLimit := b.hitLimit, limitResetInfo := b.limitResetInfo,
               contextPercent := b.contextPercent, currentTool := b.currentTool,
               sessionLimitPct := b.sessionLimitPct,
               sessionLimitReset := b.sessionLimitReset }

theorem ParseShape.reflP (a : AgentLight) : ParseShape a a := rfl

theorem ParseShape.transP {a b c : AgentLight} (h1 : ParseShape a b) (h2 : ParseShape b c) :
    ParseShape a c := by
  unfold ParseShape at *
  rw [h1] at h2
  exact h2

theorem ParseShape.fieldsP {a b : AgentLight} (h : ParseShape a b) :
    b.name = a.name ∧ b.icon = a.icon ∧ b.role = a.role ∧ b.rig = a.rig ∧
    b.sessionName = a.sessionName ∧ b.agentType = a.agentType ∧
    b.curActivity = a.curActivity ∧ b.prevActivity = a.prevActivity ∧
    b.lastChangeTime = a.lastChangeTime ∧ b.level = a.level := by
  rw [h]
  exact ⟨rfl, rfl, rfl, rfl, rfl, rfl, rfl, rfl, rfl, rfl⟩

theorem resetPaneFields_shape (a : AgentLight) : ParseShape a (resetPaneFields a) := rfl

theorem sessionLimitUpd_shape (a : AgentLight) (t l : Str) :
    ParseShape a (sessionLimitUpd a t l) := by
  unfold sessionLimitUpd
  split_ifs <;> rfl

theorem contextPctUpd_shape (a : AgentLight) (t l : Str) :
    ParseShape a (contextPctUpd a t l) := by
  unfold contextPctUpd
  split_ifs <;> rfl

theorem currentToolUpd_shape (a : AgentLight) (t : Str) :
    ParseShape a (currentToolUpd a t) := by
  unfold currentToolUpd
  split_ifs <;> rfl

theorem scanLimitsLine_shape (a : AgentLight) (line : Str) :
    ParseShape a (scanLimitsLine a line).2 := by
  unfold scanLimitsLine
  split_ifs
  · rfl
  · rfl
  · rfl
  · exact ((sessionLimitUpd_shape a _ _).transP (contextPctUpd_shape _ _ _)).transP
      (currentToolUpd_shape _ _)

theorem scanLimits_shape (a : AgentLight) (lines : List Str) :
    ParseShape a (scanLimits a lines) := by
  induction lines generalizing a with
  | nil => exact ParseShape.reflP a
  | cons line rest ih =>
    simp only [scanLimits]
    split
    · exact scanLimitsLine_shape a line
    · exact (scanLimitsLine_shape a line).transP (ih _)

theorem scanRateLimited_shape (a : AgentLight) (lines : List Str) :
    ParseShape a (scanRateLimited a lines) := by
  unfold scanRateLimited
  split_ifs <;> rfl

theorem claudeScans_shape (a : AgentLight) (lines : List Str) :
    ParseShape a (claudeScans a lines) :=
  ((resetPaneFields_shape a).transP (scanLimits_shape _ lines)).transP
    (scanRateLimited_shape _ lines)

theorem claudeCompactClear_shape (a : AgentLight) : ParseShape a (claudeCompactClear a) := by
  unfold claudeCompactClear
  split_ifs <;> rfl

theorem claudeHitClear_shape (a : AgentLight) : ParseShape a (claudeHitClear a) := by
  unfold claudeHitClear
  split_ifs <;> rfl

theorem claudeTaskAppend_shape (a : AgentLight) (t : Str) :
    ParseShape a (claudeTaskAppend a t) := by
  unfold claudeTaskAppend
  split_ifs <;> rfl

theorem claudeFinish_shape (a : AgentLight) (t : Str) : ParseShape a (claudeFinish a t) :=
  ((claudeCompactClear_shape a).transP (claudeHitClear_shape _)).transP
    (claudeTaskAppend_shape _ t)

theorem setStatus_shape (a : AgentLight) (st : Str) :
    ParseShape a { a with statusText := st } := rfl

theorem setWaiting_shape (a : AgentLight) (r : Str) :
    ParseShape a { a with waitingForHuman := true, waitingReason := r } := rfl

theorem parsePaneContentClaude_shape (a : AgentLight) (lines : List Str) :
    ParseShape a (parsePaneContentClaude a lines) := by
  unfold parsePaneContentClaude
  split
  · exact resetPaneFields_shape a
  · split
    · exact (claudeScans_shape a lines).transP (setWaiting_shape _ _)
    · exact ((claudeScans_shape a lines).transP (setStatus_shape _ _)).transP
        (claudeFinish_shape _ _)
    · exact (claudeScans_shape a lines).transP (claudeFinish_shape _ _)

theorem ocCtxUpd_shape (a : AgentLight) (t : Str) : ParseShape a (ocCtxUpd a t) := by
  unfold ocCtxUpd
  split_ifs <;> rfl

theorem ocRateUpd_shape (a : AgentLight) (l : Str) : ParseShape a (ocRateUpd a l) := by
  unfold ocRateUpd
  split_ifs <;> rfl

theorem ocHitUpd_shape (a : AgentLight) (line l : Str) : ParseShape a (ocHitUpd a line l) := by
  unfold ocHitUpd
  split_ifs <;> rfl

theorem ocAgentLine_shape (a : AgentLight) (line : Str) : ParseShape a (ocAgentLine a line) := by
  unfold ocAgentLine
  split_ifs
  · exact ParseShape.reflP a
  · exact ParseShape.reflP a
  · exact ((ocCtxUpd_shape a _).transP (ocRateUpd_shape _ _)).transP (ocHitUpd_shape _ _ _)

theorem ocScanLine_shape (st : AgentLight × OCSignals) (line : Str) :
    ParseShape st.1 (ocScanLine st line).1 :=
  ocAgentLine_shape st.1 line

theorem ocFold_shape (lines : List Str) (st : AgentLight × OCSignals) :
    ParseShape st.1 (lines.foldl ocScanLine st).1 := by
  induction lines generalizing st with
  | nil => exact ParseShape.reflP st.1
  | cons line rest ih =>
    exact (ocScanLine_shape st line).transP (ih (ocScanLine st line))

theorem ocSelTool_shape (a : AgentLight) (sg : OCSignals) : ParseShape a (ocSelTool a sg) := by
  unfold ocSelTool
  split_ifs <;> rfl

theorem ocSelActiveSub_shape (a : AgentLight) (sg : OCSignals) :
    ParseShape a (ocSelActiveSub a sg) := by
  unfold ocSelActiveSub
  split_ifs <;> rfl

theorem ocSelActiveBash_shape (a : AgentLight) (sg : OCSignals) :
    ParseShape a (ocSelActiveBash a sg) := by
  unfold ocSelActiveBash
  split_ifs <;> rfl

theorem ocSelPending_shape (a : AgentLight) (sg : OCSignals) :
    ParseShape a (ocSelPending a sg) := by
  unfold ocSelPending
  split_ifs <;> rfl

theorem ocSelSpinner_shape (a : AgentLight) (sg : OCSignals) :
    ParseShape a (ocSelSpinner a sg) := by
  unfold ocSelSpinner
  split_ifs <;> rfl

theorem ocSelPanelSub_shape (a : AgentLight) (sg : OCSignals) :
    ParseShape a (ocSelPanelSub a sg) := by
  unfold ocSelPanelSub
  split_ifs <;> rfl

theorem ocSelPanelBash_shape (a : AgentLight) (sg : OCSignals) :
    ParseShape a (ocSelPanelBash a sg) := by
  unfold ocSelPanelBash
  split_ifs <;> rfl

theorem ocSelElapsed_shape (a : AgentLight) (sg : OCSignals) :
    ParseShape a (ocSelElapsed a sg) := by
  unfold ocSelElapsed
  split_ifs <;> rfl

theorem ocSelect_shape (a : AgentLight) (sg : OCSignals) : ParseShape a (ocSelect a sg) := by
  unfold ocSelect
  split_ifs
  · exact ocSelTool_shape a sg
  · exact ocSelActiveSub_shape a sg
  · exact ocSelActiveBash_shape a sg
  · exact ocSelPending_shape a sg
  · exact ocSelSpinner_shape a sg
  · exact ocSelPanelSub_shape a sg
  · exact ocSelPanelBash_shape a sg
  · exact ocSelElapsed_shape a sg
  · rfl
  · rfl

theorem ocHitClear_shape (a : AgentLight) : ParseShape a (ocHitClear a) := by
  unfold ocHitClear
  split_ifs <;> rfl

theorem parsePaneContentOpenCode_shape (a : AgentLight) (lines : List Str) :
    ParseShape a (parsePaneContentOpenCode a lines) := by
  unfold parsePaneContentOpenCode
  split
  · exact resetPaneFields_shape a
  · exact ((ocFold_shape lines (resetPaneFields a, ocSignals0)).transP
      (ocSelect_shape _ _)).transP (ocHitClear_shape _)

/-! ### Level-step lemmas -/

/-- The level computation writes only the level and the (debounce-cleared)
waiting flag. -/
def LevelShape (a b : AgentLight) : Prop :=
  b = { a with level := b.level, waitingForHuman := b.waitingForHuman }

theorem LevelShape.fieldsL {a b : AgentLight} (h : LevelShape a b) :
    b.sessionName = a.sessionName ∧ b.curActivity = a.curActivity ∧
    b.prevActivity = a.prevActivity ∧ b.lastChangeTime = a.lastChangeTime ∧
    b.hitLimit = a.hitLimit ∧ b.currentTool = a.currentTool ∧
    b.agentType = a.agentType := by
  rw [h]
  exact ⟨rfl, rfl, rfl, rfl, rfl, rfl, rfl⟩

theorem LevelShape.transL {a b c : AgentLight} (h1 : LevelShape a b) (h2 : LevelShape b c) :
    LevelShape a c := by
  unfold LevelShape at *
  rw [h1] at h2
  exact h2

theorem clearFalseWaiting_shape (s : Int) (a : AgentLight) :
    LevelShape a (clearFalseWaiting s a) := by
  unfold clearFalseWaiting
  split_ifs <;> rfl

theorem timeBucket_shape (s : Int) (a : AgentLight) (c : Counts) :
    LevelShape a (timeBucket s a c).1 := by
  unfold timeBucket
  split_ifs <;> rfl

theorem rateOverride_shape (p : AgentLight × Counts) : LevelShape p.1 (rateOverride p).1 := by
  unfold rateOverride
  split_ifs <;> rfl

theorem levelStep_shape (s : Int) (a : AgentLight) (c : Counts) :
    LevelShape a (levelStep s a c).1 := by
  unfold levelStep
  split_ifs
  · rfl
  · exact (clearFalseWaiting_shape s a).transL rfl
  · exact ((clearFalseWaiting_shape s a).transL
      (timeBucket_shape s (clearFalseWaiting s a) c)).transL
      (rateOverride_shape (timeBucket s (clearFalseWaiting s a) c))

theorem timeBucket_agent_free (s : Int) (a : AgentLight) (c c' : Counts) :
    (timeBucket s a c).1 = (timeBucket s a c').1 := by
  unfold timeBucket
  split_ifs <;> rfl

theorem rateOverride_agent (x : AgentLight) (c c' : Counts) :
    (rateOverride (x, c)).1 = (rateOverride (x, c')).1 := by
  unfold rateOverride
  simp only []
  split_ifs <;> rfl

theorem levelStep_agent_counts_free (s : Int) (a : AgentLight) (c c' : Counts) :
    (levelStep s a c).1 = (levelStep s a c').1 := by
  unfold levelStep
  split_ifs
  · rfl
  · rfl
  · calc (rateOverride (timeBucket s (clearFalseWaiting s a) c)).1
        = (rateOverride ((timeBucket s (clearFalseWaiting s a) c').1,
            (timeBucket s (clearFalseWaiting s a) c).2)).1 := by
          rw [← timeBucket_agent_free s (clearFalseWaiting s a) c c']
      _ = (rateOverride ((timeBucket s (clearFalseWaiting s a) c').1,
            (timeBucket s (clearFalseWaiting s a) c').2)).1 :=
          rateOverride_agent _ _ _
      _ = (rateOverride (timeBucket s (clearFalseWaiting s a) c')).1 := rfl

/-- Counter increment for a freshly assigned level, as the merge performs it:
Warm and Cool share the idle counter, Cold is the stuck counter. -/
def bumpLevel (c : Counts) (lvl : ActivityLevel) : Counts :=
  match lvl with
  | .levelActive => { c with active := c.active + 1 }
  | .levelRecent => { c with recent := c.recent + 1 }
  | .levelWarm => { c with idle := c.idle + 1 }
  | .levelCool => { c with idle := c.idle + 1 }
  | .levelCold => { c with stuck := c.stuck + 1 }
  | .levelRateLimited => { c with rateLimited := c.rateLimited + 1 }
  | .levelHitLimit => { c with hitLimit := c.hitLimit + 1 }
  | .levelWaitingForHuman => { c with waiting := c.waiting + 1 }
  | .levelDead => c

/-- One pass of the level computation bumps exactly the counter of the level
it assigns (the decrement-then-increment of the rate-limit override cancels). -/
theorem timeRate_counts (s : Int) (a : AgentLight) (c : Counts) :
    (rateOverride (timeBucket s a c)).2 =
      bumpLevel c ((rateOverride (timeBucket s a c)).1).level := by
  unfold timeBucket rateOverride
  split_ifs <;> first | rfl | simp_all

theorem levelStep_counts (s : Int) (a : AgentLight) (c : Counts) :
    (levelStep s a c).2 = bumpLevel c ((levelStep s a c).1).level := by
  unfold levelStep
  split_ifs
  · rfl
  · rfl
  · exact timeRate_counts s (clearFalseWaiting s a) c

theorem timeRate_not_dead (s : Int) (a : AgentLight) (c : Counts) :
    ((rateOverride (timeBucket s a c)).1).level ≠ .levelDead := by
  unfold timeBucket rateOverride
  split_ifs <;> exact fun h => ActivityLevel.noConfusion h

theorem levelStep_not_dead (s : Int) (a : AgentLight) (c : Counts) :
    ((levelStep s a c).1).level ≠ .levelDead := by
  unfold levelStep
  split_ifs
  · exact fun h => ActivityLevel.noConfusion h
  · exact fun h => ActivityLevel.noConfusion h
  · exact timeRate_not_dead s (clearFalseWaiting s a) c

/-! ### Tool-event application lemmas -/

/-- The event loop of `applyToolEvents` rewrites at most the current tool of
an agent. -/
def EqButTool (a b : AgentLight) : Prop := b = { a with currentTool := b.currentTool }

theorem EqButTool.reflT (a : AgentLight) : EqButTool a a := rfl

theorem EqButTool.transT {a b c : AgentLight} (h1 : EqButTool a b) (h2 : EqButTool b c) :
    EqButTool a c := by
  unfold EqButTool at *
  rw [h1] at h2
  exact h2

theorem EqButTool.fieldsT {a b : AgentLight} (h : EqButTool a b) :
    b.sessionName = a.sessionName ∧ b.curActivity = a.curActivity ∧
    b.prevActivity = a.prevActivity ∧ b.lastChangeTime = a.lastChangeTime ∧
    b.level = a.level ∧ b.hitLimit = a.hitLimit := by
  rw [h]
  exact ⟨rfl, rfl, rfl, rfl, rfl, rfl⟩

/-- A map whose function only rewrites current tools leaves every
tool-insensitive projection of the list unchanged. -/
theorem map_toolOnly_eq {α : Type} (f : AgentLight → α)
    (hf : ∀ a t, f { a with currentTool := t } = f a)
    (g : AgentLight → AgentLight)
    (hg : ∀ x, g x = x ∨ ∃ t, g x = { x with currentTool := t })
    (agents : List AgentLight) :
    (agents.map g).map f = agents.map f := by
  rw [List.map_map]
  apply List.map_congr_left
  intro x _
  rcases hg x with h | ⟨t, h⟩
  · simp only [Function.comp_apply, h]
  · simp only [Function.comp_apply, h]
    exact hf x t

theorem applyOneEvent_map {α : Type} (f : AgentLight → α)
    (hf : ∀ a t, f { a with currentTool := t } = f a)
    (agents : List AgentLight) (evt : ToolEvent) :
    (applyOneEvent agents evt).map f = agents.map f := by
  unfold applyOneEvent
  split_ifs
  · apply map_toolOnly_eq f hf
    intro x
    split_ifs
    · exact Or.inr ⟨evtNewTool evt, rfl⟩
    · exact Or.inl rfl
  · split
    · apply map_toolOnly_eq f hf
      intro x
      split_ifs
      · exact Or.inr ⟨evtNewTool evt, rfl⟩
      · exact Or.inl rfl
    · rfl
  · rfl

theorem eventsFold_map {α : Type} (f : AgentLight → α)
    (hf : ∀ a t, f { a with currentTool := t } = f a)
    (events : List ToolEvent) (agents : List AgentLight) :
    ((events.foldl applyOneEvent agents).map f) = agents.map f := by
  induction events generalizing agents with
  | nil => rfl
  | cons e es ih =>
    rw [List.foldl_cons, ih (applyOneEvent agents e), applyOneEvent_map f hf]

theorem applyToolEvents_map {α : Type} (f : AgentLight → α)
    (hf : ∀ a t, f { a with currentTool := t } = f a)
    (events : List ToolEvent) (agents : List AgentLight) :
    ((applyToolEvents events agents).map f) = agents.map f := by
  unfold applyToolEvents
  split_ifs
  · rfl
  · rfl
  · exact eventsFold_map f hf events agents

/-- Predicate used to follow one agent by session name through the merge. -/
def hasName (n : Str) (x : AgentLight) : Bool := x.sessionName = n

theorem hasName_toolFree (n : Str) : ∀ (a : AgentLight) (t : Str),
    hasName n { a with currentTool := t } = hasName n a := fun _ _ => rfl

/-- Following a named agent through a map that rewrites at most current
tools. -/
theorem find?_map_toolOnly (p : AgentLight → Bool)
    (hp : ∀ a t, p { a with currentTool := t } = p a)
    (g : AgentLight → AgentLight)
    (hg : ∀ x, g x = x ∨ ∃ t, g x = { x with currentTool := t })
    (agents : List AgentLight) {v : AgentLight}
    (hv : agents.find? p = some v) :
    ∃ w, (agents.map g).find? p = some w ∧ EqButTool v w := by
  have hpg : (fun x => p (g x)) = p := by
    funext x
    rcases hg x with h | ⟨t, h⟩
    · rw [h]
    · rw [h]; exact hp x t
  refine ⟨g v, ?_, ?_⟩
  · rw [List.find?_map]
    have : p ∘ g = p := hpg
    rw [this, hv]
    rfl
  · rcases hg v with h | ⟨t, h⟩
    · rw [h]; exact EqButTool.reflT v
    · rw [h]; rfl

theorem applyOneEvent_find? (p : AgentLight → Bool)
    (hp : ∀ a t, p { a with currentTool := t } = p a)
    (agents : List AgentLight) (evt : ToolEvent) {v : AgentLight}
    (hv : agents.find? p = some v) :
    ∃ w, (applyOneEvent agents evt).find? p = some w ∧ EqButTool v w := by
  unfold applyOneEvent
  split_ifs
  · apply find?_map_toolOnly p hp _ ?_ agents hv
    intro x
    split_ifs
    · exact Or.inr ⟨evtNewTool evt, rfl⟩
    · exact Or.inl rfl
  · split
    · apply find?_map_toolOnly p hp _ ?_ agents hv
      intro x
      split_ifs
      · exact Or.inr ⟨evtNewTool evt, rfl⟩
      · exact Or.inl rfl
    · exact ⟨v, hv, EqButTool.reflT v⟩
  · exact ⟨v, hv, EqButTool.reflT v⟩

theorem eventsFold_find? (p : AgentLight → Bool)
    (hp : ∀ a t, p { a with currentTool := t } = p a)
    (events : List ToolEvent) (agents : List AgentLight) {v : AgentLight}
    (hv : agents.find? p = some v) :
    ∃ w, (events.foldl applyOneEvent agents).find? p = some w ∧ EqButTool v w := by
  induction events generalizing agents v with
  | nil => exact ⟨v, hv, EqButTool.reflT v⟩
  | cons e es ih =>
    obtain ⟨w1, hw1, he1⟩ := applyOneEvent_find? p hp agents e hv
    obtain ⟨w2, hw2, he2⟩ := ih (applyOneEvent agents e) hw1
    exact ⟨w2, hw2, he1.transT he2⟩

theorem applyToolEvents_find? (p : AgentLight → Bool)
    (hp : ∀ a t, p { a with currentTool := t } = p a)
    (events : List ToolEvent) (agents : List AgentLight) {v : AgentLight}
    (hv : agents.find? p = some v) :
    ∃ w, (applyToolEvents events agents).find? p = some w ∧ EqButTool v w := by
  unfold applyToolEvents
  split_ifs
  · exact ⟨v, hv, EqButTool.reflT v⟩
  · exact ⟨v, hv, EqButTool.reflT v⟩
  · exact eventsFold_find? p hp events agents hv

/-! ### Merge-phase lemmas: following one agent through `updateAgents` -/

theorem updateExistingAgent_sessionName (now : Nat) (a : AgentLight) (s : SessionInfo) :
    (updateExistingAgent now a s).sessionName = a.sessionName := by
  unfold updateExistingAgent
  split_ifs <;> rfl

theorem parseSessionName_sessionName (a : AgentLight) :
    (parseSessionName a).sessionName = a.sessionName := by
  unfold parseSessionName parseHq parseGtRest
  repeat' split
  all_goals rfl

theorem newAgentLight_sessionName (env : Str → Str) (now : Nat) (s : SessionInfo) :
    (newAgentLight env now s).sessionName = s.name := by
  unfold newAgentLight
  rw [parseSessionName_sessionName]

/-- `find?` by name commutes with a map whose function keeps session names. -/
theorem find?_map_nameKeep (n : Str) (g : AgentLight → AgentLight)
    (hg : ∀ x, (g x).sessionName = x.sessionName) (agents : List AgentLight) :
    (agents.map g).find? (hasName n) = Option.map g (agents.find? (hasName n)) := by
  rw [List.find?_map]
  have hpe : (hasName n ∘ g) = hasName n := by
    funext x
    simp only [Function.comp_apply, hasName, hg x]
  rw [hpe]

theorem mergeSession_find?_ne (env : Str → Str) (now : Nat) (agents : List AgentLight)
    (s : SessionInfo) (n : Str) (hne : s.name ≠ n) :
    (mergeSession env now agents s).find? (hasName n) = agents.find? (hasName n) := by
  unfold mergeSession
  split_ifs with hany
  · rw [find?_map_nameKeep n _ (fun x => by
      split_ifs
      · exact updateExistingAgent_sessionName now x s
      · rfl) agents]
    cases hfind : agents.find? (hasName n) with
    | none => rfl
    | some v =>
      have hv : v.sessionName = n := by
        have := List.find?_some hfind
        simpa [hasName] using this
      simp only [Option.map_some']
      congr 1
      rw [if_neg]
      intro heq
      exact hne (heq ▸ hv : _)
  · rw [List.find?_append]
    have hnew : ([newAgentLight env now s].find? (hasName n)) = none := by
      have : hasName n (newAgentLight env now s) = false := by
        simp [hasName, newAgentLight_sessionName, hne]
      simp [List.find?, this]
    rw [hnew]
    cases agents.find? (hasName n) <;> rfl

theorem mergeSession_find?_eq (env : Str → Str) (now : Nat) (agents : List AgentLight)
    (s : SessionInfo) {a : AgentLight}
    (hfind : agents.find? (hasName s.name) = some a) :
    (mergeSession env now agents s).find? (hasName s.name)
      = some (updateExistingAgent now a s) := by
  have hmem := List.mem_of_find?_eq_some hfind
  have hname : a.sessionName = s.name := by
    have := List.find?_some hfind
    simpa [hasName] using this
  unfold mergeSession
  rw [if_pos (List.any_eq_true.mpr ⟨a, hmem, by simp [hname]⟩)]
  rw [find?_map_nameKeep s.name _ (fun x => by
    split_ifs
    · exact updateExistingAgent_sessionName now x s
    · rfl) agents]
  rw [hfind]
  simp only [Option.map_some']
  congr 1
  rw [if_pos hname]

theorem mergeFold_find?_none (env : Str → Str) (now : Nat) (sessions : List SessionInfo)
    (agents : List AgentLight) (n : Str) (habs : ∀ s ∈ sessions, s.name ≠ n) :
    (sessions.foldl (mergeSession env now) agents).find? (hasName n)
      = agents.find? (hasName n) := by
  induction sessions generalizing agents with
  | nil => rfl
  | cons s rest ih =>
    rw [List.foldl_cons, ih _ (fun t ht => habs t (List.mem_cons_of_mem s ht)),
      mergeSession_find?_ne env now agents s n (habs s (List.mem_cons_self s rest))]

theorem mergeFold_find?_update (env : Str → Str) (now : Nat) (sessions : List SessionInfo)
    (agents : List AgentLight) {a : AgentLight} {s : SessionInfo}
    (hnd : (sessions.map (·.name)).Nodup) (hs : s ∈ sessions)
    (hfind : agents.find? (hasName s.name) = some a) :
    (sessions.foldl (mergeSession env now) agents).find? (hasName s.name)
      = some (updateExistingAgent now a s) := by
  induction sessions generalizing agents with
  | nil => cases hs
  | cons s0 rest ih =>
    rw [List.foldl_cons]
    rcases List.mem_cons.mp hs with rfl | hmem
    · have habs : ∀ t ∈ rest, t.name ≠ s.name := by
        intro t ht heq
        exact (List.nodup_cons.mp hnd).1 (List.mem_map.mpr ⟨t, ht, heq⟩)
      rw [mergeFold_find?_none env now rest _ _ habs,
        mergeSession_find?_eq env now agents s hfind]
    · have hne : s0.name ≠ s.name := by
        intro heq
        exact (List.nodup_cons.mp hnd).1 (List.mem_map.mpr ⟨s, hmem, heq.symm⟩)
      refine ih _ (List.Nodup.of_cons hnd) hmem ?_
      rw [mergeSession_find?_ne env now agents s0 s.name hne]
      exact hfind

theorem find?_of_mem_nodup (l : List AgentLight)
    (hnd : (l.map (·.sessionName)).Nodup) {a : AgentLight} (ha : a ∈ l) :
    l.find? (hasName a.sessionName) = some a := by
  induction l with
  | nil => cases ha
  | cons x rest ih =>
    rcases List.mem_cons.mp ha with rfl | hmem
    · exact List.find?_cons_of_pos _ (by simp [hasName])
    · have hx : ¬ (hasName a.sessionName x = true) := by
        simp only [hasName, decide_eq_true_eq]
        intro heq
        exact (List.nodup_cons.mp hnd).1 (List.mem_map.mpr ⟨a, hmem, heq.symm⟩)
      rw [List.find?_cons_of_neg _ hx]
      exact ih (List.Nodup.of_cons hnd) hmem

theorem find?_filter_of_pred (l : List AgentLight) (p q : AgentLight → Bool)
    {v : AgentLight} (h : l.find? p = some v) (hq : q v = true) :
    (l.filter q).find? p = some v := by
  induction l with
  | nil => simp [List.find?] at h
  | cons x rest ih =>
    by_cases hx : p x = true
    · rw [List.find?_cons_of_pos _ hx] at h
      obtain rfl : x = v := Option.some.inj h
      rw [List.filter_cons, if_pos hq]
      exact List.find?_cons_of_pos _ hx
    · rw [List.find?_cons_of_neg _ hx] at h
      rw [List.filter_cons]
      split_ifs
      · rw [List.find?_cons_of_neg _ hx]
        exact ih h
      · exact ih h

/-- The agent produced by the level loop for one input agent (the counter
argument is irrelevant to it). -/
def levelAgentOf (now : Nat) (sessions : List SessionInfo) (a : AgentLight) : AgentLight :=
  (pollOne now sessions a counts0).1

theorem pollOne_agent_free (now : Nat) (sessions : List SessionInfo) (a : AgentLight)
    (c c' : Counts) : (pollOne now sessions a c).1 = (pollOne now sessions a c').1 := by
  unfold pollOne
  exact levelStep_agent_counts_free _ _ c c'

theorem levelLoop_fst (now : Nat) (sessions : List SessionInfo) (l : List AgentLight)
    (c : Counts) : (levelLoop now sessions l c).1 = l.map (levelAgentOf now sessions) := by
  induction l generalizing c with
  | nil => rfl
  | cons a rest ih =>
    simp only [levelLoop, List.map_cons]
    rw [ih]
    congr 1
    exact pollOne_agent_free now sessions a c counts0

theorem parsePaneContent_ident (a : AgentLight) (lines : List Str) :
    (parsePaneContent a lines).sessionName = a.sessionName ∧
    (parsePaneContent a lines).curActivity = a.curActivity ∧
    (parsePaneContent a lines).prevActivity = a.prevActivity ∧
    (parsePaneContent a lines).lastChangeTime = a.lastChangeTime ∧
    (parsePaneContent a lines).level = a.level := by
  unfold parsePaneContent
  split_ifs
  · obtain ⟨-, -, -, -, h5, -, h7, h8, h9, h10⟩ :=
      ParseShape.fieldsP (parsePaneContentOpenCode_shape
        { a with agentType := detectAgentTypeFromPane lines } lines)
    exact ⟨h5, h7, h8, h9, h10⟩
  · obtain ⟨-, -, -, -, h5, -, h7, h8, h9, h10⟩ :=
      ParseShape.fieldsP (parsePaneContentClaude_shape
        { a with agentType := detectAgentTypeFromPane lines } lines)
    exact ⟨h5, h7, h8, h9, h10⟩
  · obtain ⟨-, -, -, -, h5, -, h7, h8, h9, h10⟩ :=
      ParseShape.fieldsP (parsePaneContentOpenCode_shape a lines)
    exact ⟨h5, h7, h8, h9, h10⟩
  · obtain ⟨-, -, -, -, h5, -, h7, h8, h9, h10⟩ :=
      ParseShape.fieldsP (parsePaneContentClaude_shape a lines)
    exact ⟨h5, h7, h8, h9, h10⟩

theorem pollAgent_ident (pane : Option (List Str)) (a : AgentLight) :
    (pollAgent pane a).sessionName = a.sessionName ∧
    (pollAgent pane a).curActivity = a.curActivity ∧
    (pollAgent pane a).prevActivity = a.prevActivity ∧
    (pollAgent pane a).lastChangeTime = a.lastChangeTime ∧
    (pollAgent pane a).level = a.level := by
  cases pane with
  | none => exact ⟨rfl, rfl, rfl, rfl, rfl⟩
  | some lines => exact parsePaneContent_ident a lines

theorem levelAgentOf_ident (now : Nat) (sessions : List SessionInfo) (a : AgentLight) :
    (levelAgentOf now sessions a).sessionName = a.sessionName ∧
    (levelAgentOf now sessions a).curActivity = a.curActivity ∧
    (levelAgentOf now sessions a).prevActivity = a.prevActivity ∧
    (levelAgentOf now sessions a).lastChangeTime = a.lastChangeTime := by
  obtain ⟨h1, h2, h3, h4, -⟩ := pollAgent_ident (paneFor sessions a.sessionName) a
  obtain ⟨g1, g2, g3, g4, -, -, -⟩ :=
    LevelShape.fieldsL (levelStep_shape
      ((now : Int) - ((pollAgent (paneFor sessions a.sessionName) a).lastChangeTime : Int))
      (pollAgent (paneFor sessions a.sessionName) a) counts0)
  exact ⟨g1.trans h1, g2.trans h2, g3.trans h3, g4.trans h4⟩

theorem updateExistingAgent_spec (now : Nat) (a : AgentLight) (s : SessionInfo) :
    (updateExistingAgent now a s).prevActivity = a.curActivity ∧
    (updateExistingAgent now a s).curActivity = s.activity ∧
    (updateExistingAgent now a s).lastChangeTime
      = (if s.activity ≠ a.curActivity then now else a.lastChangeTime) := by
  unfold updateExistingAgent
  split_ifs <;> exact ⟨rfl, rfl, rfl⟩

/-! ### Counter lemmas -/

/-- Sum of the seven aggregate counters. -/
def countsSum (c : Counts) : Nat :=
  c.active + c.recent + c.idle + c.stuck + c.rateLimited + c.hitLimit + c.waiting

theorem bumpLevel_counts (c : Counts) (lvl : ActivityLevel) :
    (bumpLevel c lvl).active = c.active + (if lvl = .levelActive then 1 else 0) ∧
    (bumpLevel c lvl).recent = c.recent + (if lvl = .levelRecent then 1 else 0) ∧
    (bumpLevel c lvl).idle
      = c.idle + (if lvl = .levelWarm ∨ lvl = .levelCool then 1 else 0) ∧
    (bumpLevel c lvl).stuck = c.stuck + (if lvl = .levelCold then 1 else 0) ∧
    (bumpLevel c lvl).rateLimited
      = c.rateLimited + (if lvl = .levelRateLimited then 1 else 0) ∧
    (bumpLevel c lvl).hitLimit = c.hitLimit + (if lvl = .levelHitLimit then 1 else 0) ∧
    (bumpLevel c lvl).waiting
      = c.waiting + (if lvl = .levelWaitingForHuman then 1 else 0) := by
  cases lvl <;> simp [bumpLevel]

theorem levelLoop_snd (now : Nat) (sessions : List SessionInfo) (l : List AgentLight)
    (c : Counts) :
    (levelLoop now sessions l c).2.active
      = c.active + (levelLoop now sessions l c).1.countP (fun x => x.level = .levelActive) ∧
    (levelLoop now sessions l c).2.recent
      = c.recent + (levelLoop now sessions l c).1.countP (fun x => x.level = .levelRecent) ∧
    (levelLoop now sessions l c).2.idle
      = c.idle + (levelLoop now sessions l c).1.countP
          (fun x => x.level = .levelWarm ∨ x.level = .levelCool) ∧
    (levelLoop now sessions l c).2.stuck
      = c.stuck + (levelLoop now sessions l c).1.countP (fun x => x.level = .levelCold) ∧
    (levelLoop now sessions l c).2.rateLimited
      = c.rateLimited + (levelLoop now sessions l c).1.countP
          (fun x => x.level = .levelRateLimited) ∧
    (levelLoop now sessions l c).2.hitLimit
      = c.hitLimit + (levelLoop now sessions l c).1.countP
          (fun x => x.level = .levelHitLimit) ∧
    (levelLoop now sessions l c).2.waiting
      = c.waiting + (levelLoop now sessions l c).1.countP
          (fun x => x.level = .levelWaitingForHuman) := by
  induction l generalizing c with
  | nil => simp [levelLoop]
  | cons a rest ih =>
    obtain ⟨i1, i2, i3, i4, i5, i6, i7⟩ := ih (pollOne now sessions a c).2
    have hb := bumpLevel_counts c ((pollOne now sessions a c).1).level
    obtain ⟨b1, b2, b3, b4, b5, b6, b7⟩ := hb
    have hc : (pollOne now sessions a c).2
        = bumpLevel c ((pollOne now sessions a c).1).level := levelStep_counts _ _ _
    simp only [levelLoop, List.countP_cons]
    rw [i1, i2, i3, i4, i5, i6, i7, hc, b1, b2, b3, b4, b5, b6, b7]
    refine ⟨?_, ?_, ?_, ?_, ?_, ?_, ?_⟩ <;> (simp only [decide_eq_true_eq]; omega)

theorem countP_level_partition (l : List AgentLight)
    (h : ∀ x ∈ l, x.level ≠ .levelDead) :
    l.countP (fun x => x.level = .levelActive) +
      l.countP (fun x => x.level = .levelRecent) +
      l.countP (fun x => x.level = .levelWarm ∨ x.level = .levelCool) +
      l.countP (fun x => x.level = .levelCold) +
      l.countP (fun x => x.level = .levelRateLimited) +
      l.countP (fun x => x.level = .levelHitLimit) +
      l.countP (fun x => x.level = .levelWaitingForHuman) = l.length := by
  induction l with
  | nil => rfl
  | cons x rest ih =>
    have hx := h x (List.mem_cons_self x rest)
    have ihr := ih (fun y hy => h y (List.mem_cons_of_mem x hy))
    simp only [List.countP_cons, List.length_cons]
    cases hlvl : x.level
    case levelDead => exact absurd hlvl hx
    all_goals simp at ihr ⊢
    all_goals omega

theorem countP_level_transfer (pl : ActivityLevel → Bool) (events : List ToolEvent)
    (l : List AgentLight) :
    (applyToolEvents events l).countP (fun x => pl x.level)
      = l.countP (fun x => pl x.level) := by
  have h := applyToolEvents_map (·.level) (fun _ _ => rfl) events l
  calc (applyToolEvents events l).countP (fun x => pl x.level)
      = ((applyToolEvents events l).map (·.level)).countP pl :=
        (List.countP_map pl _ _).symm
    _ = (l.map (·.level)).countP pl := by rw [h]
    _ = l.countP (fun x => pl x.level) := List.countP_map pl _ _

theorem length_applyToolEvents (events : List ToolEvent) (l : List AgentLight) :
    (applyToolEvents events l).length = l.length := by
  have h := congrArg List.length (applyToolEvents_map (·.level) (fun _ _ => rfl) events l)
  simpa using h

/-! ### The claims -/

/-- C3: for every agent whose session appears in consecutive polls, the
previous-activity timestamp after the merge equals the current-activity
timestamp held before the merge (shift register), and the wall-clock
last-change time is set to `now` exactly when the fresh timestamp differs
from the held one, otherwise kept.  The uniqueness hypotheses mirror the
tmux guarantee that session names are unique (spec: no two AgentSession
records share a session identifier). -/
theorem c3_shift_register (envProbe : Str → Str) (m : TownModel)
    (sessions : List SessionInfo) (events : List ToolEvent) (now : Nat)
    (hndA : (m.agents.map (·.sessionName)).Nodup)
    (hndS : (sessions.map (·.name)).Nodup)
    {a : AgentLight} (ha : a ∈ m.agents) {s : SessionInfo} (hs : s ∈ sessions)
    (hname : a.sessionName = s.name) :
    ∃ a' ∈ (updateAgents envProbe m sessions events now).agents,
      a'.sessionName = a.sessionName ∧
      a'.prevActivity = a.curActivity ∧
      a'.curActivity = s.activity ∧
      a'.lastChangeTime = (if s.activity ≠ a.curActivity then now else a.lastChangeTime) := by
  have hfind0 : m.agents.find? (hasName s.name) = some a := by
    rw [← hname]
    exact find?_of_mem_nodup m.agents hndA ha
  have hfold : (mergedAgents envProbe m sessions now).find? (hasName s.name)
      = some (updateExistingAgent now a s) :=
    mergeFold_find?_update envProbe now sessions m.agents hndS hs hfind0
  have hq : (fun x => sessions.any (fun t => t.name = x.sessionName))
      (updateExistingAgent now a s) = true := by
    apply List.any_eq_true.mpr
    refine ⟨s, hs, ?_⟩
    rw [updateExistingAgent_sessionName, hname]
    simp
  have hfilt : (filteredAgents envProbe m sessions now).find? (hasName s.name)
      = some (updateExistingAgent now a s) :=
    find?_filter_of_pred _ _ _ hfold hq
  have hloop : (loopResult envProbe m sessions now).1.find? (hasName s.name)
      = some (levelAgentOf now sessions (updateExistingAgent now a s)) := by
    show (levelLoop now sessions (filteredAgents envProbe m sessions now) counts0).1.find?
      (hasName s.name) = _
    rw [levelLoop_fst]
    rw [find?_map_nameKeep s.name _ (fun x => (levelAgentOf_ident now sessions x).1)]
    rw [hfilt]
    rfl
  obtain ⟨w, hw, hwe⟩ := applyToolEvents_find? (hasName s.name) (hasName_toolFree s.name)
    events _ hloop
  refine ⟨w, List.mem_of_find?_eq_some hw, ?_, ?_, ?_, ?_⟩ <;>
    [skip; skip; skip; skip]
  all_goals
    obtain ⟨e1, e2, e3, e4, -, -⟩ := EqButTool.fieldsT hwe
    obtain ⟨v1, v2, v3, v4⟩ := levelAgentOf_ident now sessions (updateExistingAgent now a s)
    obtain ⟨u2, u3, u4⟩ := updateExistingAgent_spec now a s
  · rw [e1, v1, updateExistingAgent_sessionName]
  · rw [e3, v3, u2]
  · rw [e2, v2, u3]
  · rw [e4, v4, u4]

/-- C4: a session name absent from the poll leaves no agent behind: after the
merge no agent in the collection carries that name (immediate removal, no
grace period). -/
theorem c4_absent_removed (envProbe : Str → Str) (m : TownModel)
    (sessions : List SessionInfo) (events : List ToolEvent) (now : Nat) (n : Str)
    (habsent : ∀ s ∈ sessions, s.name ≠ n) :
    ∀ a' ∈ (updateAgents envProbe m sessions events now).agents, a'.sessionName ≠ n := by
  intro a' ha'
  have hmap : ((updateAgents envProbe m sessions events now).agents.map (·.sessionName))
      = (filteredAgents envProbe m sessions now).map (·.sessionName) := by
    show ((applyToolEvents events (loopResult envProbe m sessions now).1).map (·.sessionName))
      = _
    rw [applyToolEvents_map (·.sessionName) (fun _ _ => rfl) events]
    have hfst : (loopResult envProbe m sessions now).1
        = (filteredAgents envProbe m sessions now).map (levelAgentOf now sessions) :=
      levelLoop_fst now sessions _ counts0
    rw [hfst, List.map_map]
    exact List.map_congr_left (fun x _ => (levelAgentOf_ident now sessions x).1)
  have hmem : a'.sessionName ∈ (filteredAgents envProbe m sessions now).map (·.sessionName) := by
    rw [← hmap]
    exact List.mem_map_of_mem _ ha'
  obtain ⟨b, hbmem, hbname⟩ := List.mem_map.mp hmem
  have hbq := List.of_mem_filter hbmem
  obtain ⟨s, hsmem, hseq⟩ := List.any_eq_true.mp hbq
  intro heq
  apply habsent s hsmem
  rw [decide_eq_true_eq] at hseq
  rw [hseq, hbname, heq]

/-- C10: after every merge each live agent contributes to exactly one
aggregate counter — the seven counters equal the per-level counts of the
final agent list (Warm and Cool share the idle counter, Cold is the stuck
counter) and their sum is the total agent count. -/
theorem c10_counter_partition (envProbe : Str → Str) (m : TownModel)
    (sessions : List SessionInfo) (events : List ToolEvent) (now : Nat) :
    (updateAgents envProbe m sessions events now).activeCount
      = (updateAgents envProbe m sessions events now).agents.countP
          (fun x => x.level = .levelActive) ∧
    (updateAgents envProbe m sessions events now).recentCount
      = (updateAgents envProbe m sessions events now).agents.countP
          (fun x => x.level = .levelRecent) ∧
    (updateAgents envProbe m sessions events now).idleCount
      = (updateAgents envProbe m sessions events now).agents.countP
          (fun x => x.level = .levelWarm ∨ x.level = .levelCool) ∧
    (updateAgents envProbe m sessions events now).stuckCount
      = (updateAgents envProbe m sessions events now).agents.countP
          (fun x => x.level = .levelCold) ∧
    (updateAgents envProbe m sessions events now).rateLimitedCount
      = (updateAgents envProbe m sessions events now).agents.countP
          (fun x => x.level = .levelRateLimited) ∧
    (updateAgents envProbe m sessions events now).hitLimitCount
      = (updateAgents envProbe m sessions events now).agents.countP
          (fun x => x.level = .levelHitLimit) ∧
    (updateAgents envProbe m sessions events now).waitingCount
      = (updateAgents envProbe m sessions events now).agents.countP
          (fun x => x.level = .levelWaitingForHuman) ∧
    (updateAgents envProbe m sessions events now).activeCount
      + (updateAgents envProbe m sessions events now).recentCount
      + (updateAgents envProbe m sessions events now).idleCount
      + (updateAgents envProbe m sessions events now).stuckCount
      + (updateAgents envProbe m sessions events now).rateLimitedCount
      + (updateAgents envProbe m sessions events now).hitLimitCount
      + (updateAgents envProbe m sessions events now).waitingCount
      = (updateAgents envProbe m sessions events now).totalAgents ∧
    (updateAgents envProbe m sessions events now).totalAgents
      = (updateAgents envProbe m sessions events now).agents.length := by
  obtain ⟨l1, l2, l3, l4, l5, l6, l7⟩ :=
    levelLoop_snd now sessions (filteredAgents envProbe m sessions now) counts0
  have hnd : ∀ x ∈ (loopResult envProbe m sessions now).1, x.level ≠ .levelDead := by
    intro x hx
    have hfst : (loopResult envProbe m sessions now).1
        = (filteredAgents envProbe m sessions now).map (levelAgentOf now sessions) :=
      levelLoop_fst now sessions _ counts0
    rw [hfst] at hx
    obtain ⟨b, -, rfl⟩ := List.mem_map.mp hx
    exact levelStep_not_dead _ _ _
  have t1 := countP_level_transfer (fun lvl => lvl = .levelActive) events
    (loopResult envProbe m sessions now).1
  have t2 := countP_level_transfer (fun lvl => lvl = .levelRecent) events
    (loopResult envProbe m sessions now).1
  have t3 := countP_level_transfer (fun lvl => lvl = .levelWarm ∨ lvl = .levelCool) events
    (loopResult envProbe m sessions now).1
  have t4 := countP_level_transfer (fun lvl => lvl = .levelCold) events
    (loopResult envProbe m sessions now).1
  have t5 := countP_level_transfer (fun lvl => lvl = .levelRateLimited) events
    (loopResult envProbe m sessions now).1
  have t6 := countP_level_transfer (fun lvl => lvl = .levelHitLimit) events
    (loopResult envProbe m sessions now).1
  have t7 := countP_level_transfer (fun lvl => lvl = .levelWaitingForHuman) events
    (loopResult envProbe m sessions now).1
  have hpart := countP_level_partition
    (levelLoop now sessions (filteredAgents envProbe m sessions now) counts0).1 hnd
  have hlen := length_applyToolEvents events (loopResult envProbe m sessions now).1
  refine ⟨?_, ?_, ?_, ?_, ?_, ?_, ?_, ?_, ?_⟩
  · exact (l1.trans (Nat.zero_add _)).trans t1.symm
  · exact (l2.trans (Nat.zero_add _)).trans t2.symm
  · exact (l3.trans (Nat.zero_add _)).trans t3.symm
  · exact (l4.trans (Nat.zero_add _)).trans t4.symm
  · exact (l5.trans (Nat.zero_add _)).trans t5.symm
  · exact (l6.trans (Nat.zero_add _)).trans t6.symm
  · exact (l7.trans (Nat.zero_add _)).trans t7.symm
  · show (levelLoop now sessions (filteredAgents envProbe m sessions now) counts0).2.active
        + (levelLoop now sessions (filteredAgents envProbe m sessions now) counts0).2.recent
        + (levelLoop now sessions (filteredAgents envProbe m sessions now) counts0).2.idle
        + (levelLoop now sessions (filteredAgents envProbe m sessions now) counts0).2.stuck
        + (levelLoop now sessions
            (filteredAgents envProbe m sessions now) counts0).2.rateLimited
        + (levelLoop now sessions (filteredAgents envProbe m sessions now) counts0).2.hitLimit
        + (levelLoop now sessions (filteredAgents envProbe m sessions now) counts0).2.waiting
      = (levelLoop now sessions (filteredAgents envProbe m sessions now) counts0).1.length
    rw [l1, l2, l3, l4, l5, l6, l7]
    simpa [counts0] using hpart
  · exact hlen.symm

/-- C6: a non-empty cached dialect is never recomputed: parsing any pane,
whatever dialect its content matches, leaves the agent-type — and therefore
the parser dispatched on it — unchanged. -/
theorem c6_dialect_cached (a : AgentLight) (lines : List Str) (h : a.agentType ≠ []) :
    (parsePaneContent a lines).agentType = a.agentType := by
  unfold parsePaneContent
  split_ifs with h1 h2 h3
  · exact absurd (List.isEmpty_iff.mp h1) h
  · exact absurd (List.isEmpty_iff.mp h1) h
  · exact (ParseShape.fieldsP (parsePaneContentOpenCode_shape a lines)).2.2.2.2.2.1
  · exact (ParseShape.fieldsP (parsePaneContentClaude_shape a lines)).2.2.2.2.2.1

/-- Witness for C6: a pane carrying the OpenCode signature does not reclassify
an agent already cached as the primary dialect. -/
theorem c6_dialect_cached_witness :
    detectAgentTypeFromPane [("• OpenCode 1.1.60").data] = ("opencode").data ∧
    (parsePaneContent { blankAgent with agentType := ("claude").data }
      [("• OpenCode 1.1.60").data]).agentType = ("claude").data :=
  ⟨by decide,
   c6_dialect_cached { blankAgent with agentType := ("claude").data }
     [("• OpenCode 1.1.60").data] (by decide)⟩

theorem claudeFinish_hitLimit_eq (a : AgentLight) (t : Str) :
    (claudeFinish a t).hitLimit = a.hitLimit := by
  unfold claudeFinish claudeTaskAppend claudeHitClear claudeCompactClear
  split_ifs <;> rfl

theorem claudeFinish_tool_cleared (a : AgentLight) (t : Str) (hh : a.hitLimit = true) :
    (claudeFinish a t).currentTool = [] := by
  unfold claudeFinish claudeTaskAppend claudeHitClear claudeCompactClear
  split_ifs <;> rfl

theorem parsePaneContentClaude_hitTool (a : AgentLight) (lines : List Str)
    (hh : (parsePaneContentClaude a lines).hitLimit = true)
    (hw : (parsePaneContentClaude a lines).waitingForHuman = false) :
    (parsePaneContentClaude a lines).currentTool = [] := by
  by_cases hE : lines.isEmpty = true
  · unfold parsePaneContentClaude at hh
    rw [if_pos hE] at hh
    simp [resetPaneFields] at hh
  · unfold parsePaneContentClaude at hh hw ⊢
    rw [if_neg hE] at hh hw ⊢
    cases hscan : scanBottomRev 0 lines.reverse with
    | humanWait r =>
      rw [hscan] at hw
      simp at hw
    | statusFound st =>
      rw [hscan] at hh
      rw [claudeFinish_hitLimit_eq] at hh
      exact claudeFinish_tool_cleared _ _ hh
    | nothingFound =>
      rw [hscan] at hh
      rw [claudeFinish_hitLimit_eq] at hh
      exact claudeFinish_tool_cleared _ _ hh

theorem parsePaneContentOpenCode_hitTool (a : AgentLight) (lines : List Str)
    (hh : (parsePaneContentOpenCode a lines).hitLimit = true) :
    (parsePaneContentOpenCode a lines).currentTool = [] := by
  by_cases hE : lines.isEmpty = true
  · unfold parsePaneContentOpenCode at hh
    rw [if_pos hE] at hh
    simp [resetPaneFields] at hh
  · unfold parsePaneContentOpenCode at hh ⊢
    rw [if_neg hE] at hh ⊢
    unfold ocHitClear at hh ⊢
    split_ifs at hh ⊢ with hcond
    · rfl
    · exact absurd hh hcond

theorem parsePaneContent_hitTool (a : AgentLight) (lines : List Str)
    (hh : (parsePaneContent a lines).hitLimit = true)
    (hw : (parsePaneContent a lines).waitingForHuman = false) :
    (parsePaneContent a lines).currentTool = [] := by
  unfold parsePaneContent at hh hw ⊢
  split_ifs at hh hw ⊢
  · exact parsePaneContentOpenCode_hitTool _ lines hh
  · exact parsePaneContentClaude_hitTool _ lines hh hw
  · exact parsePaneContentOpenCode_hitTool _ lines hh
  · exact parsePaneContentClaude_hitTool _ lines hh hw

theorem levelStep_hitLimit (s : Int) (p : AgentLight) (c : Counts)
    (hh : p.hitLimit = true) (hw : p.waitingForHuman = false) :
    ((levelStep s p c).1).level = .levelHitLimit ∧
    ((levelStep s p c).1).currentTool = p.currentTool := by
  unfold levelStep
  split_ifs with hc1
  · rw [hw] at hc1
    simp at hc1
  · refine ⟨rfl, ?_⟩
    show (clearFalseWaiting s p).currentTool = p.currentTool
    unfold clearFalseWaiting
    split_ifs <;> rfl

/-- C1, amended: when the hard-cap flag is set after pane parsing and the
parser did not also set the waiting-for-human flag, the level computation
assigns `HitLimit` regardless of elapsed time, and the current tool ends the
per-agent poll cleared (the parser post-processing cleared it).  When the
waiting flag is also set, the waiting override wins for elapsed times beyond
the debounce, and the parser's early exit can leave a current tool in place
(see the counterexample). -/
theorem c1_hit_limit_amended (a : AgentLight) (lines : List Str) (sinceMs : Int) (c : Counts)
    (h1 : (parsePaneContent a lines).hitLimit = true)
    (h2 : (parsePaneContent a lines).waitingForHuman = false) :
    ((levelStep sinceMs (parsePaneContent a lines) c).1).level = .levelHitLimit ∧
    ((levelStep sinceMs (parsePaneContent a lines) c).1).currentTool = [] := by
  obtain ⟨hl, ht⟩ := levelStep_hitLimit sinceMs (parsePaneContent a lines) c h1 h2
  exact ⟨hl, ht.trans (parsePaneContent_hitTool a lines h1 h2)⟩

/-- Witness for the amended C1. -/
theorem c1_hit_limit_amended_witness :
    (parsePaneContent blankAgent [("you have hit your limit").data]).hitLimit = true ∧
    (parsePaneContent blankAgent [("you have hit your limit").data]).waitingForHuman
      = false ∧
    ((levelStep 999999 (parsePaneContent blankAgent [("you have hit your limit").data])
      counts0).1).level = .levelHitLimit ∧
    ((levelStep 999999 (parsePaneContent blankAgent [("you have hit your limit").data])
      counts0).1).currentTool = [] := by
  have h := c1_hit_limit_amended blankAgent [("you have hit your limit").data] 999999 counts0
    (by decide) (by decide)
  exact ⟨by decide, by decide, h.1, h.2⟩

/-- The concrete C1 scenario: a pane whose limit scan sets the hard cap and a
tool, and whose bottom-up scan then hits a waiting pattern and returns
early. -/
def c1Agent : AgentLight :=
  { blankAgent with sessionName := ("gt-rig-joe").data, agentType := ("claude").data,
                    curActivity := 100, prevActivity := 100, lastChangeTime := 0 }

/-- Engine state holding only the C1 agent. -/
def c1Model : TownModel :=
  { agents := [c1Agent], activeCount := 0, recentCount := 0, idleCount := 0,
    stuckCount := 0, rateLimitedCount := 0, hitLimitCount := 0, waitingCount := 0,
    totalAgents := 1 }

/-- The C1 pane: tool line, hard-cap line, interruption line. -/
def c1Session : SessionInfo :=
  ⟨("gt-rig-joe").data, 100,
   [("⏺ Bash(x)").data, ("You have hit your limit").data, ("Interrupted").data]⟩

/-- Counterexample to C1 as stated: after this merge the one agent's hard-cap
flag is true, yet its level is `WaitingForHuman` (not `HitLimit`, despite 10
seconds having elapsed) and its current tool is still the `Bash(x)` set
earlier in the same poll — the waiting-pattern early return skipped the
hard-cap tool clearing. -/
theorem c1_counterexample :
    (updateAgents (fun _ => []) c1Model [c1Session] [] 10000).agents.length = 1 ∧
    ∀ x ∈ (updateAgents (fun _ => []) c1Model [c1Session] [] 10000).agents,
      x.hitLimit = true ∧ x.level = .levelWaitingForHuman ∧
      x.level ≠ .levelHitLimit ∧ x.currentTool = ("Bash(x)").data ∧
      x.currentTool ≠ [] := by
  decide

/-- The ordinary time-based level of the state machine (the switch of the
merge loop, without the overrides). -/
def timeBasedLevel (sinceMs : Int) : ActivityLevel :=
  if sinceMs < 3000 then .levelActive
  else if sinceMs < 30000 then .levelRecent
  else if sinceMs < 120000 then .levelWarm
  else if sinceMs < 300000 then .levelCool
  else .levelCold

theorem timeBucket_level (s : Int) (a : AgentLight) (c : Counts) :
    ((timeBucket s a c).1).level = timeBasedLevel s := by
  unfold timeBucket timeBasedLevel
  split_ifs <;> rfl

theorem timeBucket_waiting (s : Int) (a : AgentLight) (c : Counts) :
    ((timeBucket s a c).1).waitingForHuman = a.waitingForHuman := by
  unfold timeBucket
  split_ifs <;> rfl

theorem rateOverride_waiting (p : AgentLight × Counts) :
    ((rateOverride p).1).waitingForHuman = p.1.waitingForHuman := by
  unfold rateOverride
  split_ifs <;> rfl

theorem rateOverride_skip (p : AgentLight × Counts)
    (h : p.1.level = .levelActive ∨ p.1.level = .levelRecent) :
    (rateOverride p).1 = p.1 := by
  unfold rateOverride
  rw [if_neg]
  rcases h with h | h <;> simp [h]

theorem timeBasedLevel_fresh (s : Int) (h : s ≤ 5000) :
    timeBasedLevel s = .levelActive ∨ timeBasedLevel s = .levelRecent := by
  unfold timeBasedLevel
  split_ifs with h1 h2
  · exact Or.inl rfl
  · exact Or.inr rfl
  all_goals exact absurd (by omega : s < 30000) h2

/-- C2, amended: a waiting flag with more than 5 s elapsed yields
`WaitingForHuman`; a waiting flag within the 5 s debounce is cleared and
evaluation falls through to the hit-limit check and then the time-based
levels — the agent receives its ordinary time-based level only when the
hard-cap flag is not also set, and `HitLimit` when it is. -/
theorem c2_debounce_amended (p : AgentLight) (sinceMs : Int) (c : Counts)
    (hw : p.waitingForHuman = true) :
    (sinceMs > 5000 → ((levelStep sinceMs p c).1).level = .levelWaitingForHuman) ∧
    (sinceMs ≤ 5000 →
      ((levelStep sinceMs p c).1).waitingForHuman = false ∧
      (p.hitLimit = true → ((levelStep sinceMs p c).1).level = .levelHitLimit) ∧
      (p.hitLimit = false → ((levelStep sinceMs p c).1).level = timeBasedLevel sinceMs)) := by
  constructor
  · intro h5
    unfold levelStep
    rw [if_pos (by simp [hw, h5])]
  · intro h5
    have hnot : ¬ ((p.waitingForHuman && decide (sinceMs > 5000)) = true) := by
      simp [hw]
      omega
    have hclear : clearFalseWaiting sinceMs p = { p with waitingForHuman := false } := by
      unfold clearFalseWaiting
      rw [if_pos (by simp [hw]; omega)]
    refine ⟨?_, ?_, ?_⟩
    · unfold levelStep
      rw [if_neg hnot]
      split_ifs
      · rw [hclear]
      · rw [rateOverride_waiting, timeBucket_waiting, hclear]
    · intro hh
      unfold levelStep
      rw [if_neg hnot, if_pos hh]
    · intro hh
      unfold levelStep
      rw [if_neg hnot, if_neg (by simp [hh])]
      have hskip := rateOverride_skip (timeBucket sinceMs (clearFalseWaiting sinceMs p) c)
        (by rw [timeBucket_level]; exact timeBasedLevel_fresh sinceMs h5)
      rw [hskip, timeBucket_level]

/-- Witness for the amended C2: a 2-second-old waiting flag with no hard cap
is cleared and yields the time-based level. -/
theorem c2_debounce_amended_witness :
    ({ blankAgent with waitingForHuman := true } : AgentLight).waitingForHuman = true ∧
    (2000 : Int) ≤ 5000 ∧
    ((levelStep 2000 { blankAgent with waitingForHuman := true } counts0).1).waitingForHuman
      = false ∧
    ((levelStep 2000 { blankAgent with waitingForHuman := true } counts0).1).level
      = timeBasedLevel 2000 := by
  have h := c2_debounce_amended { blankAgent with waitingForHuman := true } 2000 counts0
    (by decide)
  exact ⟨by decide, by decide, (h.2 (by decide)).1, (h.2 (by decide)).2.2 (by decide)⟩

/-- The C2 pane: its limit scan sets the hard cap, its bottom-up scan sets the
waiting flag. -/
def c2Pane : List Str := [("You have hit your limit").data, ("Interrupted").data]

/-- Counterexample to C2 as stated: the parser set the waiting flag, only 2
seconds have elapsed, the flag is indeed cleared — but the agent receives
`HitLimit`, not its ordinary time-based level (`Active`), because the
hard-cap flag was set in the same parse. -/
theorem c2_counterexample :
    (parsePaneContentClaude blankAgent c2Pane).waitingForHuman = true ∧
    (parsePaneContentClaude blankAgent c2Pane).hitLimit = true ∧
    ((levelStep 2000 (parsePaneContentClaude blankAgent c2Pane) counts0).1).waitingForHuman
      = false ∧
    ((levelStep 2000 (parsePaneContentClaude blankAgent c2Pane) counts0).1).level
      = .levelHitLimit ∧
    timeBasedLevel 2000 = .levelActive ∧
    ((levelStep 2000 (parsePaneContentClaude blankAgent c2Pane) counts0).1).level
      ≠ timeBasedLevel 2000 := by
  decide

/-- A line that carries session-limit text (the trigger condition of the
session-limit branch of the scan loop). -/
def mentionsSessionLimit (line : Str) : Bool :=
  containsL (toLowerL (trimSpaceL line)) ("of your session limit".data) ||
  containsL (toLowerL (trimSpaceL line)) ("% of your session".data)

theorem sessionLimitUpd_skip (a : AgentLight) (t l : Str)
    (h : (containsL l ("of your session limit".data) ||
          containsL l ("% of your session".data)) = false) :
    sessionLimitUpd a t l = a := by
  unfold sessionLimitUpd
  rw [if_neg (by simp [h])]

theorem contextPctUpd_sticky (a : AgentLight) (t l : Str) :
    (contextPctUpd a t l).sessionLimitPct = a.sessionLimitPct ∧
    (contextPctUpd a t l).sessionLimitReset = a.sessionLimitReset := by
  unfold contextPctUpd
  split_ifs <;> exact ⟨rfl, rfl⟩

theorem currentToolUpd_sticky (a : AgentLight) (t : Str) :
    (currentToolUpd a t).sessionLimitPct = a.sessionLimitPct ∧
    (currentToolUpd a t).sessionLimitReset = a.sessionLimitReset := by
  unfold currentToolUpd
  split_ifs <;> exact ⟨rfl, rfl⟩

theorem scanLimitsLine_sticky (a : AgentLight) (line : Str)
    (h : mentionsSessionLimit line = false) :
    ((scanLimitsLine a line).2).sessionLimitPct = a.sessionLimitPct ∧
    ((scanLimitsLine a line).2).sessionLimitReset = a.sessionLimitReset := by
  unfold mentionsSessionLimit at h
  unfold scanLimitsLine
  split_ifs
  · exact ⟨rfl, rfl⟩
  · exact ⟨rfl, rfl⟩
  · exact ⟨rfl, rfl⟩
  · rw [sessionLimitUpd_skip a (trimSpaceL line) (toLowerL (trimSpaceL line)) h]
    obtain ⟨c1, c2⟩ := contextPctUpd_sticky a (trimSpaceL line) (toLowerL (trimSpaceL line))
    obtain ⟨t1, t2⟩ := currentToolUpd_sticky
      (contextPctUpd a (trimSpaceL line) (toLowerL (trimSpaceL line))) (trimSpaceL line)
    exact ⟨t1.trans c1, t2.trans c2⟩

theorem scanLimits_sticky (a : AgentLight) (lines : List Str)
    (h : ∀ l ∈ lines, mentionsSessionLimit l = false) :
    (scanLimits a lines).sessionLimitPct = a.sessionLimitPct ∧
    (scanLimits a lines).sessionLimitReset = a.sessionLimitReset := by
  induction lines generalizing a with
  | nil => exact ⟨rfl, rfl⟩
  | cons line rest ih =>
    obtain ⟨p1, p2⟩ := scanLimitsLine_sticky a line (h line (List.mem_cons_self line rest))
    simp only [scanLimits]
    split
    · exact ⟨p1, p2⟩
    · obtain ⟨q1, q2⟩ := ih ((scanLimitsLine a line).2)
        (fun l hl => h l (List.mem_cons_of_mem line hl))
      exact ⟨q1.trans p1, q2.trans p2⟩

theorem scanRateLimited_sticky (a : AgentLight) (lines : List Str) :
    (scanRateLimited a lines).sessionLimitPct = a.sessionLimitPct ∧
    (scanRateLimited a lines).sessionLimitReset = a.sessionLimitReset := by
  unfold scanRateLimited
  split_ifs <;> exact ⟨rfl, rfl⟩

theorem claudeFinish_sticky (a : AgentLight) (t : Str) :
    (claudeFinish a t).sessionLimitPct = a.sessionLimitPct ∧
    (claudeFinish a t).sessionLimitReset = a.sessionLimitReset := by
  unfold claudeFinish claudeTaskAppend claudeHitClear claudeCompactClear
  split_ifs <;> exact ⟨rfl, rfl⟩

theorem parsePaneContentClaude_sticky (a : AgentLight) (lines : List Str)
    (h : ∀ l ∈ lines, mentionsSessionLimit l = false) :
    (parsePaneContentClaude a lines).sessionLimitPct = a.sessionLimitPct ∧
    (parsePaneContentClaude a lines).sessionLimitReset = a.sessionLimitReset := by
  have hscan : (claudeScans a lines).sessionLimitPct = a.sessionLimitPct ∧
      (claudeScans a lines).sessionLimitReset = a.sessionLimitReset := by
    unfold claudeScans
    obtain ⟨s1, s2⟩ := scanLimits_sticky (resetPaneFields a) lines h
    obtain ⟨r1, r2⟩ := scanRateLimited_sticky (scanLimits (resetPaneFields a) lines) lines
    exact ⟨r1.trans s1, r2.trans s2⟩
  unfold parsePaneContentClaude
  split
  · exact ⟨rfl, rfl⟩
  · split
    · exact hscan
    · next st heq =>
      obtain ⟨f1, f2⟩ := claudeFinish_sticky { claudeScans a lines with statusText := st }
        (findTaskNameRev lines.reverse)
      exact ⟨f1.trans hscan.1, f2.trans hscan.2⟩
    · obtain ⟨f1, f2⟩ := claudeFinish_sticky (claudeScans a lines)
        (findTaskNameRev lines.reverse)
      exact ⟨f1.trans hscan.1, f2.trans hscan.2⟩

/-- The spec's session-limit warning line, with an explicit ASCII
apostrophe. -/
def c5Line : Str :=
  ("You").data ++ [apos] ++
    ("ve used 95% of your session limit · resets 8pm (America/Los_Angeles)").data

/-- C5: parsing a pane with the session-limit warning sets the sticky usage
percent to 95 and the sticky reset info, and both survive an immediately
following parse whose lines carry no session-limit text. -/
theorem c5_session_limit_sticky (a : AgentLight) (lines2 : List Str)
    (h : ∀ l ∈ lines2, mentionsSessionLimit l = false) :
    (parsePaneContentClaude a [c5Line]).sessionLimitPct = 95 ∧
    (parsePaneContentClaude a [c5Line]).sessionLimitReset
      = ("resets 8pm (America/Los_Angeles)").data ∧
    (parsePaneContentClaude (parsePaneContentClaude a [c5Line]) lines2).sessionLimitPct
      = 95 ∧
    (parsePaneContentClaude (parsePaneContentClaude a [c5Line]) lines2).sessionLimitReset
      = ("resets 8pm (America/Los_Angeles)").data := by
  have h1 : (parsePaneContentClaude a [c5Line]).sessionLimitPct = 95 := rfl
  have h2 : (parsePaneContentClaude a [c5Line]).sessionLimitReset
      = ("resets 8pm (America/Los_Angeles)").data := rfl
  obtain ⟨s1, s2⟩ := parsePaneContentClaude_sticky (parsePaneContentClaude a [c5Line])
    lines2 h
  exact ⟨h1, h2, s1.trans h1, s2.trans h2⟩

/-- Witness for C5, on the empty prior state and a harmless second pane. -/
theorem c5_session_limit_sticky_witness :
    (∀ l ∈ [("✳ Thinking").data], mentionsSessionLimit l = false) ∧
    (parsePaneContentClaude blankAgent [c5Line]).sessionLimitPct = 95 ∧
    (parsePaneContentClaude (parsePaneContentClaude blankAgent [c5Line])
      [("✳ Thinking").data]).sessionLimitPct = 95 ∧
    (parsePaneContentClaude (parsePaneContentClaude blankAgent [c5Line])
      [("✳ Thinking").data]).sessionLimitReset
      = ("resets 8pm (America/Los_Angeles)").data := by
  have h := c5_session_limit_sticky blankAgent [("✳ Thinking").data] (by decide)
  exact ⟨by decide, h.1, h.2.2.1, h.2.2.2⟩

theorem goLen_acc (s : Str) (n : Nat) :
    s.foldl (fun m c => m + c.utf8Size) n = n + goLen s := by
  induction s generalizing n with
  | nil => rfl
  | cons c rest ih =>
    simp only [goLen, List.foldl]
    rw [ih, ih]
    omega

theorem goLen_cons (c : Char) (s : Str) :
    goLen (c :: s) = c.utf8Size + goLen s := by
  show s.foldl (fun m ch => m + ch.utf8Size) (0 + c.utf8Size) = c.utf8Size + goLen s
  rw [goLen_acc]
  omega

theorem goLen_append (xs ys : Str) : goLen (xs ++ ys) = goLen xs + goLen ys := by
  induction xs with
  | nil =>
    show goLen ys = 0 + goLen ys
    omega
  | cons c rest ih =>
    rw [List.cons_append, goLen_cons, goLen_cons, ih]
    omega

theorem goLen_takeBytes (b : Nat) (s : Str) : goLen (takeBytes b s) ≤ b := by
  induction s generalizing b with
  | nil => exact Nat.zero_le b
  | cons c rest ih =>
    unfold takeBytes
    split_ifs with h
    · rw [goLen_cons]
      have := ih (b - c.utf8Size)
      omega
    · exact Nat.zero_le b

theorem goLen_truncateStatus (s : Str) : goLen (truncateStatus s) ≤ 200 := by
  unfold truncateStatus
  split_ifs with h
  · rw [goLen_append]
    have h1 := goLen_takeBytes 197 s
    have h2 : goLen (("...").data) = 3 := rfl
    omega
  · omega

theorem extractCurrentTool_len (line : Str) :
    goLen (extractCurrentTool line) ≤ 200 := by
  unfold extractCurrentTool
  split
  · exact Nat.zero_le _
  · split_ifs <;> try exact Nat.zero_le _
    all_goals split
    all_goals first
      | exact Nat.zero_le _
      | (split_ifs <;> first | exact Nat.zero_le _ | exact goLen_truncateStatus _)

theorem sessionLimitUpd_tool (a : AgentLight) (t l : Str) :
    (sessionLimitUpd a t l).currentTool = a.currentTool := by
  unfold sessionLimitUpd
  split_ifs <;> rfl

theorem contextPctUpd_tool (a : AgentLight) (t l : Str) :
    (contextPctUpd a t l).currentTool = a.currentTool := by
  unfold contextPctUpd
  split_ifs <;> rfl

theorem currentToolUpd_tool_le (a : AgentLight) (t : Str)
    (h : goLen a.currentTool ≤ 200) :
    goLen (currentToolUpd a t).currentTool ≤ 200 := by
  unfold currentToolUpd
  split_ifs <;> first | exact extractCurrentTool_len _ | exact h

theorem scanLimitsLine_tool_le (a : AgentLight) (line : Str)
    (h : goLen a.currentTool ≤ 200) :
    goLen ((scanLimitsLine a line).2).currentTool ≤ 200 := by
  unfold scanLimitsLine
  split_ifs
  · exact h
  · exact h
  · exact h
  · refine currentToolUpd_tool_le _ _ ?_
    rw [contextPctUpd_tool, sessionLimitUpd_tool]
    exact h

theorem scanLimits_tool_le (a : AgentLight) (lines : List Str)
    (h : goLen a.currentTool ≤ 200) :
    goLen (scanLimits a lines).currentTool ≤ 200 := by
  induction lines generalizing a with
  | nil => exact h
  | cons line rest ih =>
    simp only [scanLimits]
    split
    · exact scanLimitsLine_tool_le a line h
    · exact ih _ (scanLimitsLine_tool_le a line h)

theorem scanRateLimited_tool (a : AgentLight) (lines : List Str) :
    (scanRateLimited a lines).currentTool = a.currentTool := by
  unfold scanRateLimited
  split_ifs <;> rfl

theorem claudeScans_tool_le (a : AgentLight) (lines : List Str) :
    goLen (claudeScans a lines).currentTool ≤ 200 := by
  unfold claudeScans
  rw [scanRateLimited_tool]
  exact scanLimits_tool_le _ _ (Nat.zero_le 200)

theorem claudeFinish_tool_le (a : AgentLight) (t : Str)
    (h : goLen a.currentTool ≤ 200) :
    goLen (claudeFinish a t).currentTool ≤ 200 := by
  unfold claudeFinish claudeTaskAppend claudeHitClear claudeCompactClear
  split_ifs <;> first | exact Nat.zero_le 200 | exact h

/-- C8 (amended): the claim's universal 200-byte bound holds for the current
tool, which always passes through `truncateStatus`; it does not hold for the
status text, task name or limit-reset info (see the counterexample). -/
theorem c8_truncation_amended (a : AgentLight) (lines : List Str) :
    goLen (parsePaneContentClaude a lines).currentTool ≤ 200 := by
  unfold parsePaneContentClaude
  split
  · exact Nat.zero_le 200
  · split
    · exact claudeScans_tool_le a lines
    · exact claudeFinish_tool_le _ _ (claudeScans_tool_le a lines)
    · exact claudeFinish_tool_le _ _ (claudeScans_tool_le a lines)

/-- A working line whose parenthetical stats are 112 runes long. -/
def c8StatusLine : Str := ("✳ x (a·").data ++ List.replicate 110 'b' ++ (")").data

/-- A status-bar line carrying a 110-rune task name. -/
def c8TaskLine : Str :=
  ("bypass permissions on ").data ++ List.replicate 110 't' ++ (" esc to interrupt").data

/-- C8 counterexample: neither the parenthetical-stats path of the status-line
extractor nor the task-name extractor truncates, so a pane of two ordinary
lines yields a status text of 225 characters (227 bytes), beyond the claimed
200-character bound. -/
theorem c8_counterexample :
    (parsePaneContentClaude blankAgent [c8TaskLine, c8StatusLine]).statusText.length
      = 225 ∧
    200 < goLen (parsePaneContentClaude blankAgent [c8TaskLine, c8StatusLine]).statusText
    := by
  decide

/-- C9 (amended): a session name with neither recognized prefix resolves to
display name = raw identifier with rig and role untouched; but a `gt-`
prefixed name whose suffix has no further dash (matching no full pattern)
resolves to the suffix after `gt-`, not the raw identifier. -/
theorem c9_unrecognized_amended (a : AgentLight) :
    (startsWithL a.sessionName ("hq-").data = false →
     startsWithL a.sessionName ("gt-").data = false →
     parseSessionName a = { a with name := a.sessionName }) ∧
    (startsWithL a.sessionName ("hq-").data = false →
     startsWithL a.sessionName ("gt-").data = true →
     startsWithL (dropPrefixL a.sessionName ("gt-").data) ("dog-").data = false →
     splitN2 (dropPrefixL a.sessionName ("gt-").data) ("-").data
       = [dropPrefixL a.sessionName ("gt-").data] →
     parseSessionName a
       = { a with name := dropPrefixL a.sessionName ("gt-").data }) := by
  constructor
  · intro h1 h2
    unfold parseSessionName
    rw [h1, h2]
    rfl
  · intro h1 h2 h3 h4
    unfold parseSessionName
    rw [h1, h2, h3, h4]
    rfl

/-- Witness for C9 (amended), at a patternless name and at a dashless `gt-`
name. -/
theorem c9_unrecognized_amended_witness :
    parseSessionName { blankAgent with sessionName := ("random-thing").data }
      = { { blankAgent with sessionName := ("random-thing").data } with
          name := ("random-thing").data } ∧
    parseSessionName { blankAgent with sessionName := ("gt-foo").data }
      = { { blankAgent with sessionName := ("gt-foo").data } with
          name := ("foo").data } := by
  constructor
  · exact (c9_unrecognized_amended
      { blankAgent with sessionName := ("random-thing").data }).1 (by decide) (by decide)
  · exact (c9_unrecognized_amended
      { blankAgent with sessionName := ("gt-foo").data }).2
      (by decide) (by decide) (by decide) (by decide)

/-- C9 counterexample: the unrecognized identifier `gt-foo` (no full
`gt-rig-rest` shape) resolves to display name `foo`, not the raw
identifier. -/
theorem c9_counterexample :
    (parseSessionName { blankAgent with sessionName := ("gt-foo").data }).name
      = ("foo").data ∧
    (parseSessionName { blankAgent with sessionName := ("gt-foo").data }).name
      ≠ ("gt-foo").data ∧
    (parseSessionName { blankAgent with sessionName := ("gt-foo").data }).role = [] ∧
    (parseSessionName { blankAgent with sessionName := ("gt-foo").data }).rig = [] := by
  decide

/-- Written from the spec's words, for the C7 refinement: a record is kept
exactly when it unmarshals, its declared type is a tool-start/finish kind,
its timestamp parses and is within the last 15 seconds; every malformed or
older record is dropped. -/
def keptToolEvent (um : Str → Option RawEvt) (pt : Str → Option Int) (nowMs : Int)
    (line : Str) : Option ToolEvent :=
  match um line with
  | none => none
  | some evt =>
    if evt.type = ("tool_started").data ∨ evt.type = ("tool_finished").data then
      match pt evt.ts with
      | none => none
      | some ts =>
        if nowMs - 15000 ≤ ts then
          some { timestamp := ts, actor := evt.actor,
                 session := evt.payloadSession.getD [],
                 tool := evt.payloadTool.getD [],
                 eventType := evt.type }
        else none
    else none

/-- C7: the reader keeps exactly the records selected by `keptToolEvent`, in
order, skipping everything else without failing.  `hempty` and `hfaith` are
the two facts the Go fast paths rely on: `json.Unmarshal` rejects an empty
line, and a record whose decoded type is `tool_started`/`tool_finished` came
from a line containing that type name as a substring (so the substring
pre-filter drops no kept record). -/
theorem c7_reader (um : Str → Option RawEvt) (pt : Str → Option Int) (nowMs : Int)
    (lines : List Str)
    (hempty : um [] = none)
    (hfaith : ∀ l r, um l = some r →
      (r.type = ("tool_started").data → containsL l (("tool_started").data) = true) ∧
      (r.type = ("tool_finished").data → containsL l (("tool_finished").data) = true)) :
    readRecentToolEvents um pt nowMs lines
      = lines.filterMap (keptToolEvent um pt nowMs) := by
  induction lines with
  | nil => rfl
  | cons line rest ih =>
    rw [List.filterMap_cons]
    simp only [readRecentToolEvents]
    rw [ih]
    by_cases hemp : line.isEmpty = true
    · rw [if_pos hemp]
      have hnil : line = [] := by
        cases line with
        | nil => rfl
        | cons c cs => simp [List.isEmpty] at hemp
      subst hnil
      simp [keptToolEvent, hempty]
    · rw [if_neg hemp]
      cases hpre : (containsL line (("tool_started").data) ||
          containsL line (("tool_finished").data)) with
      | false =>
        rw [if_pos (by decide : (!false) = true)]
        cases hum : um line with
        | none => simp [keptToolEvent, hum]
        | some evt =>
          have hne : ¬(evt.type = ("tool_started").data ∨
              evt.type = ("tool_finished").data) := by
            rintro (h | h)
            · have := (hfaith line evt hum).1 h
              simp [this] at hpre
            · have := (hfaith line evt hum).2 h
              simp [this] at hpre
          simp [keptToolEvent, hum, hne]
      | true =>
        rw [if_neg (by decide : ¬((!true) = true))]
        cases hum : um line with
        | none => simp [keptToolEvent, hum]
        | some evt =>
          simp only [keptToolEvent, hum]
          by_cases h1 : evt.type = ("tool_started").data
          · simp only [h1]
            cases hts : pt evt.ts with
            | none => simp +decide [hts]
            | some ts =>
              by_cases hcut : ts < nowMs - 15000
              · simp +decide [hts, hcut, show ¬(nowMs - 15000 ≤ ts) by omega]
              · simp +decide [hts, show nowMs - 15000 ≤ ts by omega, hcut]
          · by_cases h2 : evt.type = ("tool_finished").data
            · simp only [h2]
              cases hts : pt evt.ts with
              | none => simp +decide [hts]
              | some ts =>
                by_cases hcut : ts < nowMs - 15000
                · simp +decide [hts, hcut, show ¬(nowMs - 15000 ≤ ts) by omega]
                · simp +decide [hts, show nowMs - 15000 ≤ ts by omega, hcut]
            · simp +decide [h1, h2]

/-- Event-log test line kept by the reader. -/
def c7Line1 : Str := ("e1 tool_started alice Bash").data

/-- Event-log test line whose JSON does not unmarshal. -/
def c7Line2 : Str := ("e2 tool_started bad json").data

/-- Event-log test line with an old timestamp. -/
def c7Line3 : Str := ("e3 tool_started old").data

/-- Event-log test line whose decoded type is unrecognized. -/
def c7Line4 : Str := ("e4 tool_started but other").data

/-- Event-log test line skipped by the substring pre-filter. -/
def c7Line5 : Str := ("e5 nothing relevant").data

/-- Event-log test line whose timestamp does not parse. -/
def c7Line7 : Str := ("e7 tool_finished bogus ts").data

/-- A concrete unmarshal oracle for the C7 witness. -/
def umEx : Str → Option RawEvt := fun l =>
  if l = c7Line1 then
    some { ts := ("t10").data, type := ("tool_started").data, actor := ("alice").data,
           payloadTool := some (("Bash").data), payloadSession := none }
  else if l = c7Line3 then
    some { ts := ("t-old").data, type := ("tool_started").data, actor := ("carol").data,
           payloadTool := none, payloadSession := none }
  else if l = c7Line4 then
    some { ts := ("t10").data, type := ("other").data, actor := ("dave").data,
           payloadTool := none, payloadSession := none }
  else if l = c7Line7 then
    some { ts := ("bogus").data, type := ("tool_finished").data, actor := ("erin").data,
           payloadTool := none, payloadSession := none }
  else none

/-- A concrete RFC3339 oracle (milliseconds) for the C7 witness. -/
def ptEx : Str → Option Int := fun s =>
  if s = ("t10").data then some 10000
  else if s = ("t-old").data then some 1000
  else none

/-- Witness for C7 at the clock 20000 ms (cutoff 5000 ms): of six log lines,
only the well-formed recent tool event survives. -/
theorem c7_reader_witness :
    readRecentToolEvents umEx ptEx 20000
      [c7Line1, c7Line2, c7Line3, c7Line4, c7Line5, [], c7Line7]
      = [{ timestamp := 10000, actor := ("alice").data, session := [],
           tool := ("Bash").data, eventType := ("tool_started").data }] := by
  have h := c7_reader umEx ptEx 20000
    [c7Line1, c7Line2, c7Line3, c7Line4, c7Line5, [], c7Line7]
    (by decide)
    (by
      intro l r h
      unfold umEx at h
      split_ifs at h with h1 h2 h3 h4
      · injection h with hr
        subst hr
        subst h1
        exact ⟨fun _ => by decide, fun hty => absurd hty (by decide)⟩
      · injection h with hr
        subst hr
        subst h2
        exact ⟨fun _ => by decide, fun hty => absurd hty (by decide)⟩
      · injection h with hr
        subst hr
        subst h3
        exact ⟨fun hty => absurd hty (by decide), fun hty => absurd hty (by decide)⟩
      · injection h with hr
        subst hr
        subst h4
        exact ⟨fun hty => absurd hty (by decide), fun _ => by decide⟩)
  exact h.trans (by decide)

/-- A held agent for the C3 witness, with a current timestamp of 100. -/
def c3Agent : AgentLight :=
  { blankAgent with sessionName := ("gt-w-three").data, agentType := ("claude").data,
                    curActivity := 100, prevActivity := 90, lastChangeTime := 2000 }

/-- Engine state holding only the C3 agent. -/
def c3Model : TownModel :=
  { agents := [c3Agent], activeCount := 0, recentCount := 0, idleCount := 0,
    stuckCount := 0, rateLimitedCount := 0, hitLimitCount := 0, waitingCount := 0,
    totalAgents := 1 }

/-- The same session reappearing with a fresh activity timestamp of 150. -/
def c3Session : SessionInfo := ⟨("gt-w-three").data, 150, []⟩

/-- Witness for C3: one agent, one matching session, clock 9000. -/
theorem c3_shift_register_witness :
    ∃ a' ∈ (updateAgents (fun _ => []) c3Model [c3Session] [] 9000).agents,
      a'.sessionName = c3Agent.sessionName ∧
      a'.prevActivity = c3Agent.curActivity ∧
      a'.curActivity = c3Session.activity ∧
      a'.lastChangeTime
        = (if c3Session.activity ≠ c3Agent.curActivity then 9000
           else c3Agent.lastChangeTime) := by
  exact @c3_shift_register (fun _ => []) c3Model [c3Session] [] 9000
    (by decide) (by decide) c3Agent (by decide) c3Session (by decide) (by decide)

/-- An agent for the C4 witness whose session has vanished. -/
def c4Agent : AgentLight :=
  { blankAgent with sessionName := ("gt-gone").data, agentType := ("claude").data }

/-- Engine state holding only the C4 agent. -/
def c4Model : TownModel :=
  { agents := [c4Agent], activeCount := 0, recentCount := 0, idleCount := 0,
    stuckCount := 0, rateLimitedCount := 0, hitLimitCount := 0, waitingCount := 0,
    totalAgents := 1 }

/-- The only session of the C4 poll, under a different name. -/
def c4Session : SessionInfo := ⟨("gt-stay").data, 5, []⟩

/-- Witness for C4: the poll lists only `gt-stay`, so no agent named
`gt-gone` survives the merge. -/
theorem c4_absent_removed_witness :
    ((updateAgents (fun _ => []) c4Model [c4Session] [] 1000).agents.all
      (fun x => x.sessionName ≠ ("gt-gone").data)) = true := by
  apply List.all_eq_true.mpr
  intro x hx
  have h := c4_absent_removed (fun _ => []) c4Model [c4Session] [] 1000
    (("gt-gone").data) (by decide) x hx
  simpa using h

end Gastown
